import Mathlib

/-!
Verification development for the call-swapper scheduling engine.

Shallow embedding conventions:
* ISO-8601 timestamps are modelled as `Instant := Int`, the number of minutes
  since 1970-01-01T00:00 in the schedule's (fixed-offset) timezone.  Day-of-week
  and calendar arithmetic use the real Gregorian calendar (1970-01-01 was a
  Thursday).  Daylight-saving shifts are not modelled: every calendar day is
  1440 minutes.  The `isValid()` branches of the source collapse to `True`
  because every embedded instant is a valid date.
* String ordering / equality on ISO strings (`localeCompare`, `Set` of
  `YYYY-MM-DD` strings) is modelled by ordering / equality of the corresponding
  instants resp. calendar-day indices, which agrees with the source for the
  normalised ISO strings the app produces.
* JavaScript numbers are modelled as `Rat` (the scoring arithmetic of the
  source is claimed exact, which is what the rational model captures);
  `Number.isFinite` is identically true in this model.
* JS `Map` (insertion ordered, unique keys) is modelled as an association
  list with first-match lookup; `Set` as a `List` with membership.
* Exceptions (`RuleViolationError`) are modelled with `Except`.  Human-readable
  `message` strings are presentation-only and omitted from the embedding.
-/

namespace CallSwap

/-! ## Character and string helpers (JS `toLowerCase`, `includes`, regexes) -/

/-- Case-folding equality of characters, as used by the `i` regex flag. -/
def lowEq (a b : Char) : Bool := a.toLower == b.toLower

/-- JS regex word character `\w` = `[A-Za-z0-9_]`. -/
def isWordChar (c : Char) : Bool :=
  (('a' ≤ c && c ≤ 'z') || ('A' ≤ c && c ≤ 'Z') || ('0' ≤ c && c ≤ '9') || c == '_')

/-- JS regex whitespace class `\s` (restricted to the ASCII whitespace the
schedule data can contain). -/
def wsChar (c : Char) : Bool :=
  (c == ' ' || c == '\t' || c == '\n' || c == '\r')

/-- Does `hay` start with `needle` (exact character equality)? -/
def startsWithChars : List Char → List Char → Bool
  | [], _ => true
  | _ :: _, [] => false
  | a :: as, b :: bs => a == b && startsWithChars as bs

/-- Does `hay` contain `needle` as a contiguous substring? -/
def hasSubChars (needle : List Char) : List Char → Bool
  | [] => startsWithChars needle []
  | c :: rest => startsWithChars needle (c :: rest) || hasSubChars needle rest

/-- JS `haystack.includes(needle)` on strings. -/
def strIncludes (haystack needle : String) : Bool :=
  hasSubChars needle.data haystack.data

/-- JS `s.toLowerCase()` (ASCII case folding suffices for the schedule data). -/
def strToLower (s : String) : String := ⟨s.data.map Char.toLower⟩

/-- JS `s.trim()`. -/
def strTrim (s : String) : String := ⟨(s.data.dropWhile wsChar).reverse.dropWhile wsChar |>.reverse⟩

/-! ### A small regular-expression evaluator

The rotation patterns of the source (`CALL_BLOCK_ROTATION_PATTERNS`,
`MRI_COURSE_PATTERN`, `ROTATION_PRESSURE_PATTERNS`, `ROTATION_MAMMO_PATTERN`)
only use case-insensitive literals, the classes `\s` and `[\s-]`, the
quantifiers `*`, `+` and `?`, and the word-boundary assertion `\b`.  They are
embedded as element lists interpreted by a backtracking matcher. -/

inductive RElem where
  /-- a case-insensitive literal character -/
  | lit (c : Char)
  /-- one character of a class -/
  | one (f : Char → Bool)
  /-- zero or more characters of a class (`*`) -/
  | star (f : Char → Bool)
  /-- an optional case-insensitive literal (`?`) -/
  | opt (c : Char)
  /-- the word-boundary assertion `\b` -/
  | wb

/-- Is there a word boundary between the previous character (`none` = string
edge) and the rest of the input? -/
def atBoundary (prev : Option Char) (s : List Char) : Bool :=
  let w1 := match prev with | none => false | some c => isWordChar c
  let w2 := match s with | [] => false | c :: _ => isWordChar c
  w1 != w2

/-- All states reachable from `(prev, s)` by consuming zero or more characters
of the class `f` (the split points a `*` quantifier can leave behind). -/
def starPositions (f : Char → Bool) : Option Char → List Char → List (Option Char × List Char)
  | prev, [] => [(prev, [])]
  | prev, x :: xs =>
    (prev, x :: xs) :: (if f x then starPositions f (some x) xs else [])

/-- Backtracking matcher: does some prefix of `s` match the element list?
`prev` is the character just before `s` (for `\b`). -/
def matchElems : List RElem → Option Char → List Char → Bool
  | [], _, _ => true
  | .wb :: rest, prev, s => atBoundary prev s && matchElems rest prev s
  | .lit _ :: _, _, [] => false
  | .lit c :: rest, _, x :: xs => lowEq c x && matchElems rest (some x) xs
  | .one _ :: _, _, [] => false
  | .one f :: rest, _, x :: xs => f x && matchElems rest (some x) xs
  | .star f :: rest, prev, s =>
    (starPositions f prev s).any fun pos => matchElems rest pos.1 pos.2
  | .opt _ :: rest, prev, [] => matchElems rest prev []
  | .opt c :: rest, prev, x :: xs =>
    (lowEq c x && matchElems rest (some x) xs) || matchElems rest prev (x :: xs)

/-- Does the pattern match starting at any position of the input
(`RegExp.prototype.test`)?  `prev` tracks the character before the current
start position. -/
def testFrom (p : List RElem) : Option Char → List Char → Bool
  | prev, [] => matchElems p prev []
  | prev, x :: xs => matchElems p prev (x :: xs) || testFrom p (some x) xs

/-- JS `pattern.test(s)`. -/
def regexTest (p : List RElem) (s : String) : Bool := testFrom p none s.data

/-- Literal elements of a word, case-insensitive. -/
def lits (w : String) : List RElem := w.data.map RElem.lit

/-- Elements for a `\b`-delimited single word, e.g. `\bvacation\b`. -/
def wordPat (w : String) : List RElem := .wb :: lits w ++ [.wb]

/-- Elements for `\s+` (one of the class, then star). -/
def wsPlus : List RElem := [.one wsChar, .star wsChar]

/-- Elements for a `\b w1 \s+ w2 ... \b` multi-word pattern. -/
def wordsPat (ws : List String) : List RElem :=
  .wb :: List.intercalate wsPlus (ws.map lits) ++ [.wb]

/-! ## Time model -/

/-- Minutes since 1970-01-01T00:00 in the schedule's fixed-offset timezone. -/
abbrev Instant := Int

/-- The calendar-day index of an instant (days since 1970-01-01); models
`dayjs(t).startOf('day')` and the `YYYY-MM-DD` strings identifying days. -/
def dayIdx (t : Instant) : Int := t.fdiv 1440

/-- Day of week, 0 = Sunday .. 6 = Saturday (`dayjs(t).day()`);
1970-01-01 was a Thursday (= 4). -/
def dayOfWeek (t : Instant) : Int := (dayIdx t + 4).emod 7

/-- Hour of the day, 0..23 (`dayjs(t).hour()`). -/
def hourOfDay (t : Instant) : Int := (t.emod 1440).fdiv 60

/-- Fractional hour difference `dayjs(a).diff(dayjs(b), 'hour', true)`. -/
def diffHours (a b : Instant) : Rat := ((a - b : Int) : Rat) / 60

/-- Gregorian civil date to day index (days since 1970-01-01). -/
def daysFromCivil (y m d : Int) : Int :=
  let yAdj := if m ≤ 2 then y - 1 else y
  let era := yAdj.fdiv 400
  let yoe := yAdj - era * 400
  let mp := if m > 2 then m - 3 else m + 9
  let doy := (153 * mp + 2).fdiv 5 + d - 1
  let doe := yoe * 365 + yoe.fdiv 4 - yoe.fdiv 100 + doy
  era * 146097 + doe - 719468

/-- The Gregorian year containing a day index. -/
def yearOfDay (z : Int) : Int :=
  let z' := z + 719468
  let era := z'.fdiv 146097
  let doe := z' - era * 146097
  let yoe := (doe - doe.fdiv 1460 + doe.fdiv 36524 - doe.fdiv 146096).fdiv 365
  let y := yoe + era * 400
  let doy := doe - (365 * yoe + yoe.fdiv 4 - yoe.fdiv 100)
  let mp := (5 * doy + 2).fdiv 153
  let m := if mp < 10 then mp + 3 else mp - 9
  if m ≤ 2 then y + 1 else y

/-! ## Domain types (`src/domain/types.ts`) -/

inductive ShiftType where
  | MOSES | WEILER | IP_CONSULT | NIGHT_FLOAT | BACKUP
deriving DecidableEq

structure Shift where
  id : String
  residentId : String
  startISO : Instant
  endISO : Instant
  type : ShiftType
  location : Option String
  /-- optional in the source; `undefined` behaves as `false` everywhere it is read -/
  isHoliday : Bool
deriving DecidableEq

structure RotationAssignment where
  weekStartISO : Instant
  rotation : String
  rawRotation : String
  /-- vacation days as calendar-day indices (source: `YYYY-MM-DD` strings) -/
  vacationDates : List Int
deriving DecidableEq

structure ResidentAcademicYearAssignment where
  academicYearStartISO : Instant
  label : String
deriving DecidableEq

structure Resident where
  id : String
  name : String
  eligibleShiftTypes : List ShiftType
  rotations : List RotationAssignment
  academicYears : List ResidentAcademicYearAssignment
deriving DecidableEq

structure RuleConfig where
  restHoursMin : Rat
  typeWhitelist : List ShiftType
deriving DecidableEq

structure Context where
  ruleConfig : RuleConfig
  residentsById : List (String × Resident)
  shiftsByResident : List (String × List Shift)
  shabbosObservers : List String
deriving DecidableEq

/-- First-match association-list lookup (JS `Map.prototype.get`). -/
def alookup (key : String) : List (String × α) → Option α
  | [] => none
  | (k, v) :: rest => if k = key then some v else alookup key rest

/-- Insert `x` before the first element `y` with `le x y`. -/
def insertSorted (le : α → α → Bool) (x : α) : List α → List α
  | [] => [x]
  | y :: ys => if le x y then x :: y :: ys else y :: insertSorted le x ys

/-- Stable sort by the total preorder `le`; models the (stable) JS
`Array.prototype.sort` with a comparator `c` via `le a b := c(a,b) ≤ 0`. -/
def stableSortBy (le : α → α → Bool) : List α → List α
  | [] => []
  | x :: xs => insertSorted le x (stableSortBy le xs)

deriving instance DecidableEq for Except

/-! ## Calendar helpers (`src/domain/calendar.ts`) -/

def WEEKEND_DAYS : List Int := [0, 6]

def isWeekend (iso : Instant) : Bool := decide (dayOfWeek iso ∈ WEEKEND_DAYS)

def isWeekendOrHoliday (shift : Shift) : Bool :=
  if shift.isHoliday then true
  else isWeekend shift.startISO || isWeekend shift.endISO

/-! ## Shabbos classification (`src/domain/shabbos.ts`) -/

def FRIDAY : Int := 5
def SATURDAY : Int := 6
def SATURDAY_DAYTIME_TYPES : List ShiftType := [.MOSES, .WEILER]

inductive ShabbosRestriction where
  | observerFridayCall | observerSaturdayDaytime | observerNightFloat | nonobserverNightFloat
deriving DecidableEq

def isFridayCall (shift : Shift) : Bool := decide (dayOfWeek shift.startISO = FRIDAY)

def isNightFloat (shift : Shift) : Bool := decide (shift.type = .NIGHT_FLOAT)

def isSaturdayNightFloat (shift : Shift) : Bool :=
  isNightFloat shift && decide (dayOfWeek shift.startISO = SATURDAY)

def isSaturdayDaytimeCall (shift : Shift) : Bool :=
  if shift.type ∈ SATURDAY_DAYTIME_TYPES then
    if dayOfWeek shift.startISO = SATURDAY then
      -- weekend daytime Moses/Weiler calls start during the morning or early afternoon
      decide (hourOfDay shift.startISO < 17)
    else false
  else false

/-- A resident observes Shabbos iff none of their existing shifts is a
Saturday-daytime call. -/
def resolveShabbosObservers (shiftsByResident : List (String × List Shift)) : List String :=
  shiftsByResident.filterMap fun entry =>
    if entry.2.any isSaturdayDaytimeCall then none else some entry.1

/-! ## Feasibility rule engine (`src/domain/rules.ts`) -/

def hasOverlap (aStart aEnd bStart bEnd : Instant) : Bool :=
  decide (aStart < bEnd) && decide (bStart < aEnd)

inductive RuleViolationCode where
  | OVERLAP | REST_WINDOW | ELIGIBILITY | TYPE_WHITELIST
deriving DecidableEq

/-- `RuleViolationError` (the human-readable `message` is omitted). -/
structure RuleViolationError where
  code : RuleViolationCode
  residentId : String
deriving DecidableEq

def EMPTY_SOFT_TYPES : List ShiftType := []
def BACKUP_SOFT_TYPES : List ShiftType := [.BACKUP]

/-- Pattern `/\bed[\s-]*nights?/i`. -/
def edNightsPat : List RElem :=
  .wb :: lits "ed" ++ [.star fun c => wsChar c || c == '-'] ++ lits "night" ++ [.opt 's']

def CALL_BLOCK_ROTATION_PATTERNS : List (List RElem) :=
  [ wordPat "vacation"
  , wordPat "research"
  , wordPat "nf"
  , wordPat "airp"
  , edNightsPat
  , wordPat "rsna"
  , wordsPat ["physics", "review"]
  , wordsPat ["nyrs", "review"]
  , wordsPat ["mmc", "board", "review", "prep"]
  , wordsPat ["non-interpretive", "skills", "review"]
  , wordsPat ["abr", "board", "exam"]
  , wordsPat ["us", "scanning"] ]

def MRI_COURSE_PATTERN : List RElem := wordsPat ["mri", "course"]

def selectBackupPair (first second : Shift) (softTypes : List ShiftType) : Shift × Shift :=
  let firstIsSoft := first.type ∈ softTypes
  let secondIsSoft := second.type ∈ softTypes
  if firstIsSoft ∧ ¬secondIsSoft then (first, second)
  else if ¬firstIsSoft ∧ secondIsSoft then (second, first)
  else (first, second)

def shouldEvaluatePair (prev current : Shift) (focusShiftIds : Option (List String)) : Bool :=
  match focusShiftIds with
  | none => true
  | some ids => decide (prev.id ∈ ids) || decide (current.id ∈ ids)

inductive MosesTier where
  | junior | senior
deriving DecidableEq

def getMosesTier (shift : Shift) : Option MosesTier :=
  if shift.type = .MOSES then
    let location := strToLower (shift.location.getD "")
    let id := strToLower shift.id
    if strIncludes location "junior" || strIncludes id "moses_jr" then some .junior
    else if strIncludes location "senior" || strIncludes id "moses_sr" then some .senior
    else none
  else none

/-- Union of a resident's vacation dates; the source builds a `Set`, for which
only membership is ever observed, so a concatenation is an equivalent model. -/
def collectVacationDates (resident : Resident) : List Int :=
  resident.rotations.flatMap (·.vacationDates)

def isCallBlockedRotation (rotation : String) : Bool :=
  let trimmed := strTrim rotation
  if trimmed = "" then false
  else CALL_BLOCK_ROTATION_PATTERNS.any fun p => regexTest p trimmed

def matchesRotationPattern (value : Option String) (pattern : List RElem) : Bool :=
  match value with
  | some s => regexTest pattern s
  | none => false

/-- Day index of the academic-year start (July 1) containing the given instant.
The source returns it as a midnight-UTC ISO string; the `isValid` guard is
identically true in this model. -/
def resolveAcademicYearStartForDate (isoDate : Instant) : Int :=
  let targetDay := dayIdx isoDate
  let y := yearOfDay targetDay
  let julyFirstCurrentYear := daysFromCivil y 7 1
  if targetDay < julyFirstCurrentYear then daysFromCivil (y - 1) 7 1
  else julyFirstCurrentYear

def findResidentAcademicYearLabel (resident : Resident) (shift : Shift) : Option String :=
  if resident.academicYears = [] then none
  else
    let academicYearStartDay := resolveAcademicYearStartForDate shift.startISO
    match resident.academicYears.find?
        (fun entry => decide (entry.academicYearStartISO = 1440 * academicYearStartDay)) with
    | some entry => some entry.label
    | none => none

def isResidentR3ForShift (resident : Resident) (shift : Shift) : Bool :=
  match findResidentAcademicYearLabel resident shift with
  | none => false
  | some label => strToLower (strTrim label) == "r3"

def isRotationBlockedForResident (assignment : RotationAssignment) (resident : Resident)
    (shift : Shift) : Bool :=
  if isCallBlockedRotation assignment.rotation || isCallBlockedRotation assignment.rawRotation then
    true
  else
    let isMriCourse :=
      matchesRotationPattern (some assignment.rotation) MRI_COURSE_PATTERN ||
      matchesRotationPattern (some assignment.rawRotation) MRI_COURSE_PATTERN
    if !isMriCourse then false
    else isResidentR3ForShift resident shift

/-- Calendar-day indices blocked by a rotation assignment: the two days before
the week start, the seven days of the week, and days 12 and 13 after the week
start. -/
def collectRotationBlockedDates (assignment : RotationAssignment) : List Int :=
  let weekStartDay := dayIdx assignment.weekStartISO
  [weekStartDay - 2, weekStartDay - 1]
    ++ (List.range 7).map (fun o => weekStartDay + (o : Int))
    ++ [weekStartDay + 12, weekStartDay + 13]

structure RotationBlockConflict where
  rotation : String
  rotationWeekStartISO : Instant
  conflictDates : List Int
deriving DecidableEq

def enumerateShiftCalendarDays (shift : Shift) : List Int :=
  let startDay := dayIdx shift.startISO
  let endDay := dayIdx shift.endISO
  if endDay < startDay then []
  else (List.range (endDay - startDay + 1).toNat).map fun o => startDay + (o : Int)

/-- Loop body of `shiftRotationConflicts`: first blocking assignment whose
blocked dates meet the shift's days. -/
def findRotationConflict (shift : Shift) (resident : Resident) (shiftDates : List Int) :
    List RotationAssignment → Option RotationBlockConflict
  | [] => none
  | assignment :: rest =>
    if isRotationBlockedForResident assignment resident shift then
      let blockedDates := collectRotationBlockedDates assignment
      let conflictDates := shiftDates.filter fun d => decide (d ∈ blockedDates)
      if conflictDates ≠ [] then
        some ⟨assignment.rotation, assignment.weekStartISO, conflictDates⟩
      else findRotationConflict shift resident shiftDates rest
    else findRotationConflict shift resident shiftDates rest

def shiftRotationConflicts (shift : Shift) (resident : Resident) :
    Option RotationBlockConflict :=
  if resident.rotations = [] then none
  else
    let shiftDates := enumerateShiftCalendarDays shift
    if shiftDates = [] then none
    else findRotationConflict shift resident shiftDates resident.rotations

def shiftVacationConflicts (shift : Shift) (resident : Resident) : List Int :=
  let vacationDates := collectVacationDates resident
  if vacationDates = [] then []
  else (enumerateShiftCalendarDays shift).filter fun d => decide (d ∈ vacationDates)

inductive SwapRejectionReason where
  | missingInput (shiftA shiftB : Option String)
  | identicalShift (shiftId : String)
  | sameResident (residentId shiftA shiftB : String)
  | residentMissing (residentA residentB shiftA shiftB : String)
  | typeWhitelist (whitelist : List ShiftType) (shiftA shiftB : String × ShiftType)
  | mosesTierMismatch (shiftA shiftB : String) (tierA tierB : MosesTier)
  | weekendMismatch (shiftA shiftB : String) (weekendOrHolidayA weekendOrHolidayB : Bool)
  | eligibilityA (residentId : String) (attemptedType : ShiftType)
      (eligibleTypes : List ShiftType) (shiftA shiftB : String)
  | eligibilityB (residentId : String) (attemptedType : ShiftType)
      (eligibleTypes : List ShiftType) (shiftA shiftB : String)
  | ruleViolation (code : RuleViolationCode) (residentId shiftA shiftB : String)
  | vacationConflict (residentId shiftId : String) (conflictDates : List Int)
  | rotationBlock (residentId shiftId : String) (rotation : String)
      (rotationWeekStartISO : Instant) (conflictDates : List Int)
  | shabbosRestriction (residentId shiftId : String) (shiftType : ShiftType)
      (shiftStartISO : Instant) (restriction : ShabbosRestriction)
  | unexpectedError (shiftA shiftB : String)
deriving DecidableEq

def buildShabbosRestriction (resident : Resident) (incomingShift : Shift)
    (restriction : ShabbosRestriction) : SwapRejectionReason :=
  .shabbosRestriction resident.id incomingShift.id incomingShift.type
    incomingShift.startISO restriction

def evaluateShabbosRestriction (resident : Resident) (incomingShift : Shift)
    (shabbosObservers : List String) : Option SwapRejectionReason :=
  let observesShabbos := resident.id ∈ shabbosObservers
  if observesShabbos then
    if isNightFloat incomingShift && !isSaturdayNightFloat incomingShift then
      some (buildShabbosRestriction resident incomingShift .observerNightFloat)
    else if isFridayCall incomingShift then
      some (buildShabbosRestriction resident incomingShift .observerFridayCall)
    else if isSaturdayDaytimeCall incomingShift then
      some (buildShabbosRestriction resident incomingShift .observerSaturdayDaytime)
    else none
  else if isNightFloat incomingShift && !isSaturdayNightFloat incomingShift then
    some (buildShabbosRestriction resident incomingShift .nonobserverNightFloat)
  else none

def resolveShabbosRestrictionForSwap (shabbosObservers : List String) :
    List (Resident × Shift) → Option SwapRejectionReason
  | [] => none
  | entry :: rest =>
    match evaluateShabbosRestriction entry.1 entry.2 shabbosObservers with
    | some restriction => some restriction
    | none => resolveShabbosRestrictionForSwap shabbosObservers rest

def assertShiftAllowed (shift : Shift) (cfg : RuleConfig) (resident : Resident) :
    Except RuleViolationError Unit :=
  if cfg.typeWhitelist ≠ [] ∧ shift.type ∉ cfg.typeWhitelist then
    .error ⟨.TYPE_WHITELIST, resident.id⟩
  else if shift.type ∉ resident.eligibleShiftTypes then
    .error ⟨.ELIGIBILITY, resident.id⟩
  else .ok ()

inductive SwapAdvisoryCode where
  | REST_WINDOW | OVERLAP
deriving DecidableEq

/-- Advisory of kind `backup-conflict` (the `message` string is omitted). -/
structure SwapAdvisory where
  code : SwapAdvisoryCode
  residentId : String
  backupShiftId : String
  otherShiftId : String
  restHours : Option Rat
  minimumRestHours : Option Rat
deriving DecidableEq

def buildOverlapAdvisory (prev current : Shift) (resident : Resident)
    (softTypes : List ShiftType) : SwapAdvisory :=
  let pair := selectBackupPair prev current softTypes
  ⟨.OVERLAP, resident.id, pair.1.id, pair.2.id, none, none⟩

def buildRestAdvisory (prev current : Shift) (resident : Resident)
    (softTypes : List ShiftType) (restHours restHoursMin : Rat) : SwapAdvisory :=
  let pair := selectBackupPair prev current softTypes
  ⟨.REST_WINDOW, resident.id, pair.1.id, pair.2.id, some restHours, some restHoursMin⟩

def evaluatePair (prev current : Shift) (cfg : RuleConfig) (resident : Resident)
    (softTypes : List ShiftType) : Except RuleViolationError (List SwapAdvisory) := do
  let involvesSoftType := prev.type ∈ softTypes ∨ current.type ∈ softTypes
  let advisories ←
    if hasOverlap prev.startISO prev.endISO current.startISO current.endISO then
      if involvesSoftType then
        Except.ok [buildOverlapAdvisory prev current resident softTypes]
      else Except.error ⟨.OVERLAP, resident.id⟩
    else Except.ok []
  let restHoursMin := cfg.restHoursMin
  if restHoursMin > 0 then
    let restHours := diffHours current.startISO prev.endISO
    if restHours < restHoursMin then
      if involvesSoftType then
        Except.ok (advisories ++
          [buildRestAdvisory prev current resident softTypes restHours restHoursMin])
      else Except.error ⟨.REST_WINDOW, resident.id⟩
    else Except.ok advisories
  else Except.ok advisories

structure TimelineValidationOptions where
  focusShiftIds : Option (List String)
  softTypes : Option (List ShiftType)

def shouldEvaluateShift (shiftId : String) (focusShiftIds : Option (List String)) : Bool :=
  match focusShiftIds with
  | none => true
  | some ids => decide (shiftId ∈ ids)

/-- First loop of `validateResidentTimeline`: per-shift whitelist/eligibility. -/
def checkShiftsAllowed (cfg : RuleConfig) (resident : Resident)
    (focusShiftIds : Option (List String)) : List Shift → Except RuleViolationError Unit
  | [] => .ok ()
  | shift :: rest =>
    if shouldEvaluateShift shift.id focusShiftIds then do
      assertShiftAllowed shift cfg resident
      checkShiftsAllowed cfg resident focusShiftIds rest
    else checkShiftsAllowed cfg resident focusShiftIds rest

/-- Second loop of `validateResidentTimeline`: chronologically adjacent pairs. -/
def validateAdjacentPairs (cfg : RuleConfig) (resident : Resident)
    (softTypes : List ShiftType) (focusShiftIds : Option (List String)) :
    List Shift → Except RuleViolationError (List SwapAdvisory)
  | [] => .ok []
  | [_] => .ok []
  | prev :: current :: rest => do
    let advisories ←
      if shouldEvaluatePair prev current focusShiftIds then
        evaluatePair prev current cfg resident softTypes
      else .ok []
    let more ← validateAdjacentPairs cfg resident softTypes focusShiftIds (current :: rest)
    .ok (advisories ++ more)

def validateResidentTimeline (shifts : List Shift) (cfg : RuleConfig) (resident : Resident)
    (options : Option TimelineValidationOptions) :
    Except RuleViolationError (List SwapAdvisory) :=
  let sorted := stableSortBy (fun a b => decide (a.startISO ≤ b.startISO)) shifts
  let focusShiftIds := options.bind (·.focusShiftIds)
  let softTypes := (options.bind (·.softTypes)).getD EMPTY_SOFT_TYPES
  match checkShiftsAllowed cfg resident focusShiftIds sorted with
  | .error e => .error e
  | .ok _ => validateAdjacentPairs cfg resident softTypes focusShiftIds sorted

structure PreparedSwap where
  ctx : Context
  shiftA : Shift
  shiftB : Shift
  residentA : Resident
  residentB : Resident
deriving DecidableEq

/-- Tail of `prepareSwap` after the tier gate. -/
def prepareSwapTail (sa sb : Shift) (c : Context) (residentA residentB : Resident) :
    Except SwapRejectionReason PreparedSwap :=
  let weekendOrHolidayA := isWeekendOrHoliday sa
  let weekendOrHolidayB := isWeekendOrHoliday sb
  if weekendOrHolidayA ≠ weekendOrHolidayB then
    .error (.weekendMismatch sa.id sb.id weekendOrHolidayA weekendOrHolidayB)
  else if c.ruleConfig.typeWhitelist ≠ [] ∧
      (sa.type ∉ c.ruleConfig.typeWhitelist ∨ sb.type ∉ c.ruleConfig.typeWhitelist) then
    .error (.typeWhitelist c.ruleConfig.typeWhitelist (sa.id, sa.type) (sb.id, sb.type))
  else if sb.type ∉ residentA.eligibleShiftTypes then
    .error (.eligibilityA residentA.id sb.type residentA.eligibleShiftTypes sa.id sb.id)
  else if sa.type ∉ residentB.eligibleShiftTypes then
    .error (.eligibilityB residentB.id sa.type residentB.eligibleShiftTypes sa.id sb.id)
  else .ok ⟨c, sa, sb, residentA, residentB⟩

def prepareSwap (a b : Option Shift) (ctx : Option Context) :
    Except SwapRejectionReason PreparedSwap :=
  match a, b, ctx with
  | some sa, some sb, some c =>
    if sa.id = sb.id then .error (.identicalShift sa.id)
    else if sa.residentId = sb.residentId then
      .error (.sameResident sa.residentId sa.id sb.id)
    else
      match alookup sa.residentId c.residentsById, alookup sb.residentId c.residentsById with
      | some residentA, some residentB =>
        (match getMosesTier sa, getMosesTier sb with
        | some tierA, some tierB =>
          if tierA ≠ tierB then .error (.mosesTierMismatch sa.id sb.id tierA tierB)
          else prepareSwapTail sa sb c residentA residentB
        | _, _ => prepareSwapTail sa sb c residentA residentB)
      | _, _ => .error (.residentMissing sa.residentId sb.residentId sa.id sb.id)
  | _, _, _ => .error (.missingInput (a.map (·.id)) (b.map (·.id)))

inductive SwapEvaluation where
  /-- the source's `advisories?: SwapAdvisory[]`; an absent field is the empty list -/
  | feasible (advisories : List SwapAdvisory)
  | infeasible (reason : SwapRejectionReason) (advisories : List SwapAdvisory)
deriving DecidableEq

def SwapEvaluation.isFeasible : SwapEvaluation → Bool
  | .feasible _ => true
  | .infeasible _ _ => false

/-- The `try` block of `evaluateSwap`: validate both post-swap timelines;
an error carries the advisories accumulated before the throw. -/
def runSwapTimelines (timelineA timelineB : List Shift) (cfg : RuleConfig)
    (residentA residentB : Resident) (focusA focusB : String) :
    Except (RuleViolationError × List SwapAdvisory) (List SwapAdvisory) :=
  match validateResidentTimeline timelineA cfg residentA
      (some ⟨some [focusA], some BACKUP_SOFT_TYPES⟩) with
  | .error e => .error (e, [])
  | .ok advisoriesA =>
    match validateResidentTimeline timelineB cfg residentB
        (some ⟨some [focusB], some BACKUP_SOFT_TYPES⟩) with
    | .error e => .error (e, advisoriesA)
    | .ok advisoriesB => .ok (advisoriesA ++ advisoriesB)

/-- The body of `evaluateSwap` after a successful `prepareSwap`. -/
def evaluateSwapPrepared (prepared : PreparedSwap) : SwapEvaluation :=
    let preparedCtx := prepared.ctx
    let shiftA := prepared.shiftA
    let shiftB := prepared.shiftB
    let residentA := prepared.residentA
    let residentB := prepared.residentB
    let timelineA := ((alookup shiftA.residentId preparedCtx.shiftsByResident).getD []).filter
      fun s => decide (s.id ≠ shiftA.id)
    let timelineB := ((alookup shiftB.residentId preparedCtx.shiftsByResident).getD []).filter
      fun s => decide (s.id ≠ shiftB.id)
    let swappedForA : Shift := { shiftB with residentId := residentA.id }
    let swappedForB : Shift := { shiftA with residentId := residentB.id }
    match resolveShabbosRestrictionForSwap preparedCtx.shabbosObservers
        [(residentA, swappedForA), (residentB, swappedForB)] with
    | some shabbosRestriction => .infeasible shabbosRestriction []
    | none =>
      let vacationConflictsA := shiftVacationConflicts swappedForA residentA
      if vacationConflictsA ≠ [] then
        .infeasible (.vacationConflict residentA.id swappedForA.id vacationConflictsA) []
      else match shiftRotationConflicts swappedForA residentA with
      | some rotationBlockA =>
        .infeasible (.rotationBlock residentA.id swappedForA.id rotationBlockA.rotation
          rotationBlockA.rotationWeekStartISO rotationBlockA.conflictDates) []
      | none =>
        let vacationConflictsB := shiftVacationConflicts swappedForB residentB
        if vacationConflictsB ≠ [] then
          .infeasible (.vacationConflict residentB.id swappedForB.id vacationConflictsB) []
        else match shiftRotationConflicts swappedForB residentB with
        | some rotationBlockB =>
          .infeasible (.rotationBlock residentB.id swappedForB.id rotationBlockB.rotation
            rotationBlockB.rotationWeekStartISO rotationBlockB.conflictDates) []
        | none =>
          match runSwapTimelines (timelineA ++ [swappedForA]) (timelineB ++ [swappedForB])
              preparedCtx.ruleConfig residentA residentB swappedForA.id swappedForB.id with
          | .error err =>
            .infeasible (.ruleViolation err.1.code err.1.residentId shiftA.id shiftB.id) err.2
          | .ok advisories => .feasible advisories

/-- `evaluateSwap`.  The only exceptions the source can raise inside its `try`
are `RuleViolationError`s (so the modelled `catch` always takes the
`rule-violation` branch; the `unexpected-error` conversion has no inhabitant
in the embedding). -/
def evaluateSwap (a b : Option Shift) (ctx : Option Context) : SwapEvaluation :=
  match prepareSwap a b ctx with
  | .error failure => .infeasible failure []
  | .ok prepared => evaluateSwapPrepared prepared

def isFeasibleSwap (a b : Shift) (ctx : Context) : Bool :=
  (evaluateSwap (some a) (some b) (some ctx)).isFeasible

def explainSwap (a b : Shift) (ctx : Context) : SwapEvaluation :=
  evaluateSwap (some a) (some b) (some ctx)

/-! ## Pressure scoring engine (`src/domain/simipar.ts`) -/

def COMFORTABLE_REST_BUFFER_HOURS : Rat := 12
def CALL_WINDOW_DAYS : Rat := 4
def CALL_WINDOW_HOURS : Rat := CALL_WINDOW_DAYS * 24
def MIN_CLOSENESS : Rat := 1 / 1000
def SCORE_SCALE : Rat := 100
def IP_CONSULT_MISMATCH_PENALTY : Rat := -50
def ROTATION_PRESSURE_BONUS : Rat := 100

/-- Pattern `/\bm\s*neuro\s*&\s*procedures\b/i`. -/
def mNeuroPat : List RElem :=
  .wb :: lits "m" ++ [.star wsChar] ++ lits "neuro" ++ [.star wsChar] ++ lits "&"
    ++ [.star wsChar] ++ lits "procedures" ++ [.wb]

def ROTATION_PRESSURE_PATTERNS : List (List RElem) :=
  [wordPat "gi", wordsPat ["wet", "desk"], wordPat "angio", mNeuroPat]

/-- Pattern `/mammo/i` (plain substring, no boundaries). -/
def ROTATION_MAMMO_PATTERN : List RElem := lits "mammo"

inductive CalendarContext where
  | weekend | holiday
deriving DecidableEq

structure SwapPressureCall where
  shiftId : String
  shiftType : ShiftType
  startISO : Instant
  endISO : Instant
  weight : Rat
  baseline : Rat
  swapped : Rat
  delta : Rat
  calendarContext : Option CalendarContext
  rotationLabel : Option String
deriving DecidableEq

structure SwapPressureSection where
  residentId : String
  focusShiftId : String
  windowHours : Rat
  calls : List SwapPressureCall
  baselineTotal : Rat
  swappedTotal : Rat
  deltaTotal : Rat
deriving DecidableEq

structure SwapPressureBreakdown where
  score : Rat
  baselineScore : Rat
  swappedScore : Rat
  original : SwapPressureSection
  counterpart : SwapPressureSection
deriving DecidableEq

def buildZeroBreakdown (a b : Shift) : SwapPressureBreakdown :=
  { score := 0
  , baselineScore := 0
  , swappedScore := 0
  , original := ⟨a.residentId, a.id, CALL_WINDOW_HOURS, [], 0, 0, 0⟩
  , counterpart := ⟨b.residentId, b.id, CALL_WINDOW_HOURS, [], 0, 0, 0⟩ }

structure ScenarioContribution where
  shift : Shift
  closeness : Rat
  penalty : Rat
deriving DecidableEq

structure ScenarioSummary where
  contributions : List (String × ScenarioContribution)
  weightTotal : Rat

/-- JS `Map.prototype.set`: replace in place, else append. -/
def mapSet (m : List (String × α)) (key : String) (value : α) : List (String × α) :=
  if m.any fun p => decide (p.1 = key) then
    m.map fun p => if p.1 = key then (key, value) else p
  else m ++ [(key, value)]

def computeGapHours (focusStart focusEnd otherStart otherEnd : Instant) : Rat :=
  if otherEnd ≤ focusStart then diffHours focusStart otherEnd
  else if otherStart ≥ focusEnd then diffHours otherStart focusEnd
  else 0

def normaliseGap (value restMin comfortable : Rat) : Rat :=
  -- the source's `Number.isFinite(value)` guard is identically true in ℚ
  if value ≤ restMin then 0
  else if value ≥ comfortable then 1
  else (value - restMin) / (comfortable - restMin)

def collectScenario (focusShift : Shift) (otherShifts : List Shift) (restMin : Rat) :
    ScenarioSummary :=
  let comfortable := max (restMin + COMFORTABLE_REST_BUFFER_HOURS) CALL_WINDOW_HOURS
  otherShifts.foldl
    (fun (acc : ScenarioSummary) other =>
      if other.type = .BACKUP then acc
      else
        let distanceHours := |diffHours focusShift.startISO other.startISO|
        if distanceHours > CALL_WINDOW_HOURS then acc
        else
          let closenessRaw := 1 - distanceHours / CALL_WINDOW_HOURS
          let closeness := if closenessRaw > 0 then closenessRaw else MIN_CLOSENESS
          let gapHours := computeGapHours focusShift.startISO focusShift.endISO
            other.startISO other.endISO
          let restValue := normaliseGap gapHours restMin comfortable
          let penalty := -(1 - restValue)
          ⟨mapSet acc.contributions other.id ⟨other, closeness, penalty⟩,
            acc.weightTotal + closeness⟩)
    ⟨[], 0⟩

def resolveCallCalendarContext (shift : Shift) : Option CalendarContext :=
  if shift.isHoliday then some .holiday
  else if isWeekend shift.startISO || isWeekend shift.endISO then some .weekend
  else none

/-- Keep-first deduplication (JS `Set` insertion order). -/
def dedupKeepFirstAux (seen : List String) : List String → List String
  | [] => []
  | x :: xs =>
    if x ∈ seen then dedupKeepFirstAux seen xs
    else x :: dedupKeepFirstAux (x :: seen) xs

def dedupKeepFirst (l : List String) : List String := dedupKeepFirstAux [] l

structure SectionEntry where
  shift : Shift
  before : Option ScenarioContribution
  after : Option ScenarioContribution
  weight : Rat

/-- Comparator of `buildSection`'s `calls.sort` turned into a total preorder:
by |delta| descending, then weight descending, then shift id ascending (the
source's `localeCompare` is modelled by codepoint order, which only affects
tie order inside `calls`, never any total). -/
def callCompareLe (a b : SwapPressureCall) : Bool :=
  decide (|b.delta| < |a.delta|) ||
    (decide (|b.delta| = |a.delta|) &&
      (decide (b.weight < a.weight) ||
        (decide (b.weight = a.weight) && decide (a.shiftId ≤ b.shiftId))))

def buildSection (baselineShift swappedShift : Shift) (otherShifts : List Shift)
    (restMin : Rat) : SwapPressureSection :=
  let baseline := collectScenario baselineShift otherShifts restMin
  let swapped := collectScenario swappedShift otherShifts restMin
  let mergedIds := dedupKeepFirst
    (baseline.contributions.map Prod.fst ++ swapped.contributions.map Prod.fst)
  let entries : List SectionEntry := mergedIds.filterMap fun shiftId =>
    let before := alookup shiftId baseline.contributions
    let after := alookup shiftId swapped.contributions
    match (before.map (·.shift)).orElse (fun _ => after.map (·.shift)) with
    | none => none
    | some shift =>
      let weight := max ((before.map (·.closeness)).getD 0) ((after.map (·.closeness)).getD 0)
      if weight ≤ 0 then none
      else some ⟨shift, before, after, weight⟩
  if entries.isEmpty then
    ⟨baselineShift.residentId, baselineShift.id, CALL_WINDOW_HOURS, [], 0, 0, 0⟩
  else
    let totalWeight := (entries.map (·.weight)).sum
    let calls0 : List SwapPressureCall := entries.map fun entry =>
      let normalizedWeight := if totalWeight > 0 then entry.weight / totalWeight else 0
      let baselineContribution := match entry.before with
        | some c => c.penalty * normalizedWeight
        | none => 0
      let swappedContribution := match entry.after with
        | some c => c.penalty * normalizedWeight
        | none => 0
      { shiftId := entry.shift.id
      , shiftType := entry.shift.type
      , startISO := entry.shift.startISO
      , endISO := entry.shift.endISO
      , weight := entry.weight
      , baseline := baselineContribution
      , swapped := swappedContribution
      , delta := swappedContribution - baselineContribution
      , calendarContext := resolveCallCalendarContext entry.shift
      , rotationLabel := none }
    let baselineTotal := (calls0.map (·.baseline)).sum
    let swappedTotal := (calls0.map (·.swapped)).sum
    let calls := stableSortBy callCompareLe calls0
    ⟨baselineShift.residentId, baselineShift.id, CALL_WINDOW_HOURS, calls,
      baselineTotal, swappedTotal, swappedTotal - baselineTotal⟩

def resolveShiftMultiplier (shift : Shift) : Rat :=
  if shift.type = .BACKUP then 1
  else
    let weekendOrHoliday := isWeekendOrHoliday shift
    let isNF := decide (shift.type = .NIGHT_FLOAT)
    if !weekendOrHoliday && !isNF then 1
    -- weekend/holiday or Night Float individually apply 2x; both together cap at 4x
    else if weekendOrHoliday && isNF then 4
    else 2

def scaleBreakdown (breakdown : SwapPressureBreakdown) (factor : Rat) :
    SwapPressureBreakdown :=
  -- the source's `!Number.isFinite(factor)` escape is identically false in ℚ
  if factor = 1 then breakdown
  else
    let scaleCall : SwapPressureCall → SwapPressureCall := fun call =>
      { call with
        baseline := call.baseline * factor
        swapped := call.swapped * factor
        delta := call.delta * factor }
    let scaleSection : SwapPressureSection → SwapPressureSection := fun sec =>
      { sec with
        calls := if sec.calls.isEmpty then sec.calls else sec.calls.map scaleCall
      , baselineTotal := sec.baselineTotal * factor
      , swappedTotal := sec.swappedTotal * factor
      , deltaTotal := sec.deltaTotal * factor }
    { breakdown with
      score := breakdown.score * factor
    , baselineScore := breakdown.baselineScore * factor
    , swappedScore := breakdown.swappedScore * factor
    , original := scaleSection breakdown.original
    , counterpart := scaleSection breakdown.counterpart }

def isMosesSenior (shift : Shift) : Bool :=
  if shift.type ≠ .MOSES then false
  else
    let location := strToLower (shift.location.getD "")
    if strIncludes location "senior" then true
    else strIncludes (strToLower shift.id) "moses_sr"

def hasAssociatedIpConsult (shift : Shift) (ctx : Context) : Bool :=
  match alookup shift.residentId ctx.shiftsByResident with
  | none => false
  | some residentShifts =>
    residentShifts.any fun other =>
      if other.id = shift.id then false
      else if other.type ≠ .IP_CONSULT then false
      else decide (dayIdx other.startISO = dayIdx shift.startISO)

def resolveIpConsultPenalty (a b : Shift) (ctx : Context) : Rat :=
  if !isMosesSenior a || !isMosesSenior b then 0
  else
    let aHasConsult := hasAssociatedIpConsult a ctx
    let bHasConsult := hasAssociatedIpConsult b ctx
    if aHasConsult = bHasConsult then 0
    else IP_CONSULT_MISMATCH_PENALTY

def applyIpConsultPenalty (breakdown : SwapPressureBreakdown) (penalty : Rat)
    (originalShift counterpartShift : Shift) : SwapPressureBreakdown :=
  -- the source's `!Number.isFinite(penalty)` escape is identically false in ℚ
  if penalty = 0 then breakdown
  else
    let share := penalty / 2
    let appendPenalty : SwapPressureSection → Shift → SwapPressureSection :=
      fun sec shift =>
        let penaltyCall : SwapPressureCall :=
          { shiftId := "penalty:ip-consult:" ++ shift.id
          , shiftType := shift.type
          , startISO := shift.startISO
          , endISO := shift.endISO
          , weight := 0
          , baseline := 0
          , swapped := share
          , delta := share
          , calendarContext := resolveCallCalendarContext shift
          , rotationLabel := none }
        { sec with
          calls := sec.calls ++ [penaltyCall]
        , swappedTotal := sec.swappedTotal + share
        , deltaTotal := sec.deltaTotal + share }
    { breakdown with
      score := breakdown.score + penalty
    , swappedScore := breakdown.swappedScore + penalty
    , original := appendPenalty breakdown.original originalShift
    , counterpart := appendPenalty breakdown.counterpart counterpartShift }

structure RotationPressureBonus where
  value : Rat
  label : Option String

/-- Loop of `findRotationForDate`, already iterating from last to first. -/
def findRotationAux (day : Int) : List RotationAssignment → Option RotationAssignment
  | [] => none
  | assignment :: rest =>
    let weekStart := dayIdx assignment.weekStartISO
    if day < weekStart then findRotationAux day rest
    else if day > weekStart + 6 then findRotationAux day rest
    else some assignment

/-- `findRotationForDate` (`src/utils/rotations.ts`): most recent assignment
whose week (week start .. week start + 6 days) contains the date. -/
def findRotationForDate (assignments : List RotationAssignment) (isoDate : Instant) :
    Option RotationAssignment :=
  if assignments = [] then none
  else findRotationAux (dayIdx isoDate) assignments.reverse

def isHighPressureRotationName (value : String) : Bool :=
  let normalized := strTrim value
  if normalized = "" then false
  else if regexTest ROTATION_MAMMO_PATTERN normalized then true
  else ROTATION_PRESSURE_PATTERNS.any fun p => regexTest p normalized

def resolveRotationPressureBonus (resident : Resident) (shift : Shift) :
    RotationPressureBonus :=
  if resident.rotations = [] then ⟨0, none⟩
  else
    match findRotationForDate resident.rotations shift.startISO with
    | none => ⟨0, none⟩
    | some assignment =>
      match [assignment.rotation, assignment.rawRotation].find? isHighPressureRotationName with
      | none => ⟨0, none⟩
      | some matched =>
        -- JS `matched.trim() || assignment.rotation || assignment.rawRotation || null`
        let label : Option String :=
          if strTrim matched ≠ "" then some (strTrim matched)
          else if assignment.rotation ≠ "" then some assignment.rotation
          else if assignment.rawRotation ≠ "" then some assignment.rawRotation
          else none
        ⟨ROTATION_PRESSURE_BONUS, label⟩

inductive SectionKey where
  | original | counterpart
deriving DecidableEq

inductive RotationCallMode where
  | baseline | swapped
deriving DecidableEq

def RotationCallMode.tag : RotationCallMode → String
  | .baseline => "baseline"
  | .swapped => "swapped"

def appendRotationPressureCall (breakdown : SwapPressureBreakdown)
    (sectionKey : SectionKey) (shift : Shift) (resident : Resident)
    (mode : RotationCallMode) (bonus : RotationPressureBonus) : SwapPressureBreakdown :=
  let sec := match sectionKey with
    | .original => breakdown.original
    | .counterpart => breakdown.counterpart
  let baseline := match mode with | .baseline => -bonus.value | .swapped => 0
  let swapped := match mode with | .baseline => 0 | .swapped => -bonus.value
  let delta := match mode with | .baseline => bonus.value | .swapped => -bonus.value
  let rotationCall : SwapPressureCall :=
    { shiftId := "bonus:rotation:" ++ mode.tag ++ ":" ++ shift.id ++ ":" ++ resident.id
    , shiftType := shift.type
    , startISO := shift.startISO
    , endISO := shift.endISO
    , weight := 0
    , baseline := baseline
    , swapped := swapped
    , delta := delta
    , calendarContext := resolveCallCalendarContext shift
    , rotationLabel := bonus.label }
  let updatedSection : SwapPressureSection :=
    { sec with
      calls := sec.calls ++ [rotationCall]
    , baselineTotal := sec.baselineTotal + baseline
    , swappedTotal := sec.swappedTotal + swapped
    , deltaTotal := sec.deltaTotal + delta }
  { breakdown with
    score := breakdown.score + delta
  , baselineScore := breakdown.baselineScore + baseline
  , swappedScore := breakdown.swappedScore + swapped
  , original := match sectionKey with
    | .original => updatedSection
    | .counterpart => breakdown.original
  , counterpart := match sectionKey with
    | .original => breakdown.counterpart
    | .counterpart => updatedSection }

def applyRotationPressure (breakdown : SwapPressureBreakdown)
    (originalShift counterpartShift : Shift)
    (originalResident counterpartResident : Resident) : SwapPressureBreakdown :=
  let u0 := breakdown
  let originalBaseline := resolveRotationPressureBonus originalResident originalShift
  let u1 := if originalBaseline.value > 0 then
    appendRotationPressureCall u0 .original originalShift originalResident
      .baseline originalBaseline
    else u0
  let originalSwapped := resolveRotationPressureBonus originalResident counterpartShift
  let u2 := if originalSwapped.value > 0 then
    appendRotationPressureCall u1 .original counterpartShift originalResident
      .swapped originalSwapped
    else u1
  let counterpartBaseline := resolveRotationPressureBonus counterpartResident counterpartShift
  let u3 := if counterpartBaseline.value > 0 then
    appendRotationPressureCall u2 .counterpart counterpartShift counterpartResident
      .baseline counterpartBaseline
    else u2
  let counterpartSwapped := resolveRotationPressureBonus counterpartResident originalShift
  if counterpartSwapped.value > 0 then
    appendRotationPressureCall u3 .counterpart originalShift counterpartResident
      .swapped counterpartSwapped
  else u3

/-- The early-return guards of `calculateSwapPressure` (the JS null-input
guard `!a || !b || !ctx` has no inhabitant in the typed model). -/
def swapPressurePrepared (a b : Shift) (ctx : Context) : Option (Resident × Resident) :=
  if a.id = b.id ∨ a.residentId = b.residentId then none
  else
    match alookup a.residentId ctx.residentsById, alookup b.residentId ctx.residentsById with
    | some residentA, some residentB =>
      if b.type ∉ residentA.eligibleShiftTypes then none
      else if a.type ∉ residentB.eligibleShiftTypes then none
      else some (residentA, residentB)
    | _, _ => none

/-- `calculateSwapPressure` up to and including the `scaleBreakdown` step, i.e.
before the consult-penalty and rotation-pressure adjustments. -/
def swapPressureScaled (a b : Shift) (ctx : Context) : SwapPressureBreakdown :=
  match swapPressurePrepared a b ctx with
  | none => buildZeroBreakdown a b
  | some prepared =>
    let residentA := prepared.1
    let residentB := prepared.2
    let otherShiftsA := ((alookup a.residentId ctx.shiftsByResident).getD []).filter
      fun s => decide (s.id ≠ a.id)
    let otherShiftsB := ((alookup b.residentId ctx.shiftsByResident).getD []).filter
      fun s => decide (s.id ≠ b.id)
    let restMin := max 0 ctx.ruleConfig.restHoursMin
    let originalSection := buildSection a { b with residentId := residentA.id }
      otherShiftsA restMin
    let counterpartSection := buildSection b { a with residentId := residentB.id }
      otherShiftsB restMin
    let baselineScore := originalSection.baselineTotal + counterpartSection.baselineTotal
    let swappedScore := originalSection.swappedTotal + counterpartSection.swappedTotal
    let deltaScore := swappedScore - baselineScore
    let breakdown : SwapPressureBreakdown :=
      ⟨deltaScore, baselineScore, swappedScore, originalSection, counterpartSection⟩
    let multiplier := SCORE_SCALE * resolveShiftMultiplier a * resolveShiftMultiplier b
    scaleBreakdown breakdown multiplier

def calculateSwapPressure (a b : Shift) (ctx : Context) : SwapPressureBreakdown :=
  match swapPressurePrepared a b ctx with
  | none => buildZeroBreakdown a b
  | some prepared =>
    let scaledBreakdown := swapPressureScaled a b ctx
    let penalty := resolveIpConsultPenalty a b ctx
    let withConsultPenalty := applyIpConsultPenalty scaledBreakdown penalty a b
    applyRotationPressure withConsultPenalty a b prepared.1 prepared.2

def proximityPressure (a b : Shift) (ctx : Context) : Rat :=
  (calculateSwapPressure a b ctx).score

/-! ## Context transfer (`src/engine/contextTransfer.ts`)

The JS `Map`/`Set` ↔ `Array` conversions are identities on the
association-list model of `Context`. -/

structure SerializableContext where
  ruleConfig : RuleConfig
  residentsById : List (String × Resident)
  shiftsByResident : List (String × List Shift)
  shabbosObservers : List String

def serializeContext (ctx : Context) : SerializableContext :=
  ⟨ctx.ruleConfig, ctx.residentsById, ctx.shiftsByResident, ctx.shabbosObservers⟩

def hydrateContext (data : SerializableContext) : Context :=
  ⟨data.ruleConfig, data.residentsById, data.shiftsByResident, data.shabbosObservers⟩

/-! ## Parallel evaluation orchestrator (`src/engine/workerPool.ts`, `worker.ts`) -/

/-- `ShiftPair` of `src/engine/workerProtocol.ts`. -/
structure ShiftPair where
  a : Shift
  b : Shift
deriving DecidableEq

structure SwapCandidate where
  a : Shift
  b : Shift
  score : Rat
  pressure : SwapPressureBreakdown
  advisories : List SwapAdvisory
deriving DecidableEq

/-- The `kind` discriminant string of a rejection reason. -/
def SwapRejectionReason.kind : SwapRejectionReason → String
  | .missingInput _ _ => "missing-input"
  | .identicalShift _ => "identical-shift"
  | .sameResident _ _ _ => "same-resident"
  | .residentMissing _ _ _ _ => "resident-missing"
  | .typeWhitelist _ _ _ => "type-whitelist"
  | .mosesTierMismatch _ _ _ _ => "moses-tier-mismatch"
  | .weekendMismatch _ _ _ _ => "weekend-mismatch"
  | .eligibilityA _ _ _ _ _ => "eligibility-a"
  | .eligibilityB _ _ _ _ _ => "eligibility-b"
  | .ruleViolation _ _ _ _ => "rule-violation"
  | .vacationConflict _ _ _ => "vacation-conflict"
  | .rotationBlock _ _ _ _ _ => "rotation-block"
  | .shabbosRestriction _ _ _ _ _ => "shabbos-restriction"
  | .unexpectedError _ _ => "unexpected-error"

structure DiagnosticSample where
  reason : SwapRejectionReason
  shiftA : String
  shiftB : String
deriving DecidableEq

structure EvaluationDiagnostics where
  totalPairs : Nat
  accepted : Nat
  rejectionReasons : List (String × Nat)
  samples : Option (List DiagnosticSample)
deriving DecidableEq

structure WorkerOut where
  candidates : List SwapCandidate
  chunkSize : Nat
  diagnostics : EvaluationDiagnostics
deriving DecidableEq

/-- Loop state shared by the per-pair evaluation loops. -/
structure EvalLoopState where
  out : List SwapCandidate
  rejectionReasons : List (String × Nat)
  samples : List DiagnosticSample
  accepted : Nat

/-- Loop body of `SwapWorkerPool.evaluatePairsSync`. -/
def syncEvalStep (ctx : Context) (state : EvalLoopState) (pair : ShiftPair) : EvalLoopState :=
  match explainSwap pair.a pair.b ctx with
  | .infeasible reason _ =>
    let key := reason.kind
    let rejectionReasons :=
      mapSet state.rejectionReasons key ((alookup key state.rejectionReasons).getD 0 + 1)
    let samples :=
      if state.samples.length < 10 then state.samples ++ [⟨reason, pair.a.id, pair.b.id⟩]
      else state.samples
    { state with rejectionReasons := rejectionReasons, samples := samples }
  | .feasible advisories =>
    let pressure := calculateSwapPressure pair.a pair.b ctx
    { state with
      accepted := state.accepted + 1
      out := state.out ++ [⟨pair.a, pair.b, pressure.score, pressure, advisories⟩] }

/-- Loop body of the worker's `onmessage` handler (`src/engine/worker.ts`);
textually the same per-pair logic as the sync path. -/
def workerEvalStep (ctx : Context) (state : EvalLoopState) (pair : ShiftPair) : EvalLoopState :=
  match explainSwap pair.a pair.b ctx with
  | .infeasible reason _ =>
    let key := reason.kind
    let rejectionReasons :=
      mapSet state.rejectionReasons key ((alookup key state.rejectionReasons).getD 0 + 1)
    let samples :=
      if state.samples.length < 10 then state.samples ++ [⟨reason, pair.a.id, pair.b.id⟩]
      else state.samples
    { state with rejectionReasons := rejectionReasons, samples := samples }
  | .feasible advisories =>
    let pressure := calculateSwapPressure pair.a pair.b ctx
    { state with
      accepted := state.accepted + 1
      out := state.out ++ [⟨pair.a, pair.b, pressure.score, pressure, advisories⟩] }

def evaluatePairsSync (pairs : List ShiftPair) (ctx : Context) : List SwapCandidate :=
  (pairs.foldl (syncEvalStep ctx) ⟨[], [], [], 0⟩).out

/-- Diagnostics as built by `evaluatePairsSync` (used only for logging there,
but the same shape the worker returns). -/
def evaluatePairsSyncDiagnostics (pairs : List ShiftPair) (ctx : Context) :
    EvaluationDiagnostics :=
  let state := pairs.foldl (syncEvalStep ctx) ⟨[], [], [], 0⟩
  ⟨pairs.length, state.accepted, state.rejectionReasons,
    if state.samples.length > 0 then some state.samples else none⟩

/-- The worker's `onmessage` handler for an `evaluatePairs` message. -/
def workerEvaluatePairs (pairs : List ShiftPair) (serializedCtx : SerializableContext) :
    WorkerOut :=
  let ctx := hydrateContext serializedCtx
  let state := pairs.foldl (workerEvalStep ctx) ⟨[], [], [], 0⟩
  { candidates := state.out
  , chunkSize := pairs.length
  , diagnostics :=
    ⟨pairs.length, state.out.length, state.rejectionReasons,
      if state.samples.length > 0 then some state.samples else none⟩ }

def addReasonCounts (target source : List (String × Nat)) : List (String × Nat) :=
  source.foldl (fun t entry => mapSet t entry.1 ((alookup entry.1 t).getD 0 + entry.2)) target

/-- Push samples while fewer than 10 are aggregated. -/
def pushCapped (aggregated : List DiagnosticSample) :
    List DiagnosticSample → List DiagnosticSample
  | [] => aggregated
  | s :: rest =>
    if aggregated.length < 10 then pushCapped (aggregated ++ [s]) rest
    else aggregated

def collectSamplesAux (aggregated : List DiagnosticSample) :
    List EvaluationDiagnostics → List DiagnosticSample
  | [] => aggregated
  | entry :: rest =>
    match entry.samples with
    | none => collectSamplesAux aggregated rest
    | some ss => collectSamplesAux (pushCapped aggregated ss) rest

def collectSamples (entries : List EvaluationDiagnostics) : List DiagnosticSample :=
  collectSamplesAux [] entries

def mergeDiagnostics (entries : List (Option EvaluationDiagnostics)) :
    Option EvaluationDiagnostics :=
  let present := entries.filterMap id
  if present.isEmpty then none
  else
    let rejectionReasons := present.foldl (fun t e => addReasonCounts t e.rejectionReasons) []
    let samples := collectSamples present
    some ⟨(present.map (·.totalPairs)).sum, (present.map (·.accepted)).sum,
      rejectionReasons, if samples.length > 0 then some samples else none⟩

/-- Contiguous chunks of size `k` (the dispatch loop `slice(i, i + chunkSize)`);
meaningful for `k ≥ 1`, the only way it is called. -/
def chunksOf (k : Nat) : List α → List (List α)
  | [] => []
  | x :: xs => (x :: xs.take (k - 1)) :: chunksOf k (xs.drop (k - 1))
  termination_by l => l.length
  decreasing_by simp [List.length_drop]; omega

def CANDIDATE_WORKER_THRESHOLD : Nat := 200

/-- The worker branch of `SwapWorkerPool.evaluatePairs`: serialize the context
once, dispatch `ceil(pairs / adapterCount)`-sized chunks (each worker handles
its tasks in order, and `Promise.all` preserves task order), flatten the
candidates, merge diagnostics, and fall back to serial re-evaluation when the
merged output is inconsistent. -/
def evaluatePairsViaWorkers (pairs : List ShiftPair) (ctx : Context)
    (adapterCount : Nat) : List SwapCandidate :=
  let serializedCtx := serializeContext ctx
  let chunkSize := max 1 ((pairs.length + adapterCount - 1) / adapterCount)
  let results := (chunksOf chunkSize pairs).map fun chunk =>
    workerEvaluatePairs chunk serializedCtx
  let flattened := results.flatMap (·.candidates)
  let diagnostics := mergeDiagnostics (results.map fun r => some r.diagnostics)
  let diagnosticsMismatch :=
    diagnostics.isNone ∨ diagnostics.map (·.accepted) ≠ some flattened.length
  if pairs.length > 0 ∧ diagnosticsMismatch then evaluatePairsSync pairs ctx
  else flattened

/-- `SwapWorkerPool.evaluatePairs`, parametrised by the pool's spawnability,
size and threshold (`shouldUseWorkers`). -/
def evaluatePairsPool (pairs : List ShiftPair) (ctx : Context)
    (canSpawn : Bool) (size threshold : Nat) : List SwapCandidate :=
  let useWorkers := canSpawn && decide (1 < size) && decide (threshold ≤ pairs.length)
  if useWorkers then evaluatePairsViaWorkers pairs ctx size
  else evaluatePairsSync pairs ctx

/-! ## Verification predicates -/

/-- The per-section half of the §8 breakdown-consistency invariant. -/
def SectionConsistent (s : SwapPressureSection) : Prop :=
  s.swappedTotal - s.baselineTotal = (s.calls.map SwapPressureCall.delta).sum
  ∧ s.deltaTotal = s.swappedTotal - s.baselineTotal

/-- The §8 breakdown-consistency invariant. -/
def BreakdownConsistent (br : SwapPressureBreakdown) : Prop :=
  SectionConsistent br.original ∧ SectionConsistent br.counterpart
  ∧ br.score = br.original.deltaTotal + br.counterpart.deltaTotal


/-- The accepted candidate an evaluation loop appends to its `out` accumulator
for one pair, if any. -/
def pairCandidate (ctx : Context) (pair : ShiftPair) : Option SwapCandidate :=
  match explainSwap pair.a pair.b ctx with
  | .infeasible _ _ => none
  | .feasible advisories => some ⟨pair.a, pair.b,
      (calculateSwapPressure pair.a pair.b ctx).score,
      calculateSwapPressure pair.a pair.b ctx, advisories⟩


/-- `Except`-success test. -/
def exceptIsOk {ε α : Type} : Except ε α → Bool
  | .ok _ => true
  | .error _ => false

/-- The tier gate passes (both tiers resolvable and equal, or not both
resolvable). -/
def tierMatchOk (a b : Shift) : Bool :=
  match getMosesTier a, getMosesTier b with
  | some tierA, some tierB => decide (tierA = tierB)
  | _, _ => true

/-- All per-side conditions of `evaluateSwapPrepared` for one resident
receiving `incoming` in place of `own`. -/
def sideOk (ctx : Context) (own incoming : Shift) (r : Resident) : Bool :=
  let swapped : Shift := { incoming with residentId := r.id }
  let timeline := ((alookup own.residentId ctx.shiftsByResident).getD []).filter
    fun s => decide (s.id ≠ own.id)
  (evaluateShabbosRestriction r swapped ctx.shabbosObservers).isNone
    && decide (shiftVacationConflicts swapped r = [])
    && (shiftRotationConflicts swapped r).isNone
    && exceptIsOk (validateResidentTimeline (timeline ++ [swapped]) ctx.ruleConfig r
        (some ⟨some [swapped.id], some BACKUP_SOFT_TYPES⟩))

/-- Manifestly role-symmetric characterisation of swap acceptance. -/
def feasCond (a b : Shift) (ctx : Context) : Bool :=
  decide (a.id ≠ b.id)
    && decide (a.residentId ≠ b.residentId)
    && match alookup a.residentId ctx.residentsById,
        alookup b.residentId ctx.residentsById with
      | some residentA, some residentB =>
        tierMatchOk a b
          && decide (isWeekendOrHoliday a = isWeekendOrHoliday b)
          && !(decide (ctx.ruleConfig.typeWhitelist ≠ [])
              && (decide (a.type ∉ ctx.ruleConfig.typeWhitelist)
                || decide (b.type ∉ ctx.ruleConfig.typeWhitelist)))
          && decide (b.type ∈ residentA.eligibleShiftTypes)
          && decide (a.type ∈ residentB.eligibleShiftTypes)
          && sideOk ctx a b residentA
          && sideOk ctx b a residentB
      | _, _ => false

/-! ## Helper lemmas -/

theorem isSaturdayNightFloat_iff (s : Shift) :
    isSaturdayNightFloat s = true ↔ (s.type = .NIGHT_FLOAT ∧ dayOfWeek s.startISO = SATURDAY) := by
  simp [isSaturdayNightFloat, isNightFloat]

theorem isNightFloat_iff (s : Shift) : isNightFloat s = true ↔ s.type = .NIGHT_FLOAT := by
  simp [isNightFloat]

theorem isFridayCall_iff (s : Shift) : isFridayCall s = true ↔ dayOfWeek s.startISO = FRIDAY := by
  simp [isFridayCall]

theorem isSaturdayDaytimeCall_nightfloat (s : Shift) (h : s.type = .NIGHT_FLOAT) :
    isSaturdayDaytimeCall s = false := by
  simp [isSaturdayDaytimeCall, SATURDAY_DAYTIME_TYPES, h]

/-! ## Claim theorems -/

/-- C5: for a swap that reaches the Shabbos check, each person's incoming
assignment is judged exactly as follows.  A person is in the derived observer
set iff their existing schedule has no Saturday-daytime call; an observer's
incoming assignment is rejected iff it is a non-Saturday night float, a Friday
call, or a Saturday-daytime call; a non-observer's iff it is a non-Saturday
night float; and a Saturday night float is never rejected by this check. -/
theorem claim_C5_shabbos_restriction (resident : Resident) (incoming : Shift)
    (m : List (String × List Shift)) :
    (resident.id ∈ resolveShabbosObservers m ↔
      ∃ p ∈ m, p.1 = resident.id ∧ ∀ s ∈ p.2, isSaturdayDaytimeCall s = false)
    ∧ (resident.id ∈ resolveShabbosObservers m →
        ((evaluateShabbosRestriction resident incoming (resolveShabbosObservers m)).isSome ↔
          ((isNightFloat incoming = true ∧ isSaturdayNightFloat incoming = false)
            ∨ isFridayCall incoming = true ∨ isSaturdayDaytimeCall incoming = true)))
    ∧ (resident.id ∉ resolveShabbosObservers m →
        ((evaluateShabbosRestriction resident incoming (resolveShabbosObservers m)).isSome ↔
          (isNightFloat incoming = true ∧ isSaturdayNightFloat incoming = false)))
    ∧ (isSaturdayNightFloat incoming = true →
        evaluateShabbosRestriction resident incoming (resolveShabbosObservers m) = none) := by
  refine ⟨?_, ?_, ?_, ?_⟩
  · simp only [resolveShabbosObservers, List.mem_filterMap]
    constructor
    · rintro ⟨p, hp, hsome⟩
      by_cases h : p.2.any isSaturdayDaytimeCall <;> simp [h] at hsome
      exact ⟨p, hp, hsome, by simpa [List.any_eq_true] using h⟩
    · rintro ⟨p, hp, hid, hnone⟩
      refine ⟨p, hp, ?_⟩
      have : p.2.any isSaturdayDaytimeCall = false := by
        simp [List.any_eq_false]
        intro s hs
        simp [hnone s hs]
      simp [this, hid]
  · intro hobs
    cases hnf : isNightFloat incoming <;>
      cases hsnf : isSaturdayNightFloat incoming <;>
        cases hfri : isFridayCall incoming <;>
          cases hsat : isSaturdayDaytimeCall incoming <;>
            simp_all [evaluateShabbosRestriction]
  · intro hobs
    cases hnf : isNightFloat incoming <;>
      cases hsnf : isSaturdayNightFloat incoming <;>
        cases hfri : isFridayCall incoming <;>
          cases hsat : isSaturdayDaytimeCall incoming <;>
            simp_all [evaluateShabbosRestriction]
  · intro hsnf
    obtain ⟨htype, hday⟩ := (isSaturdayNightFloat_iff incoming).mp hsnf
    have hfri : isFridayCall incoming = false := by
      simp [isFridayCall, hday, SATURDAY, FRIDAY]
    have hsat : isSaturdayDaytimeCall incoming = false :=
      isSaturdayDaytimeCall_nightfloat incoming htype
    simp [evaluateShabbosRestriction, hsnf, hfri, hsat]

/-- C5 witness: a concrete observer, non-observer, and Saturday night float
exercising each conjunct. -/
theorem claim_C5_shabbos_restriction_witness :
    (evaluateShabbosRestriction ⟨"R1", "R1", [.MOSES], [], []⟩
        ⟨"S", "R2", 20364 * 1440 + 1320, 20365 * 1440, .NIGHT_FLOAT, none, false⟩
        (resolveShabbosObservers [("R1", [])])).isSome = true := by
  have h := claim_C5_shabbos_restriction ⟨"R1", "R1", [.MOSES], [], []⟩
    ⟨"S", "R2", 20364 * 1440 + 1320, 20365 * 1440, .NIGHT_FLOAT, none, false⟩ [("R1", [])]
  refine (h.2.1 ?_).mpr ?_
  · decide
  · left
    constructor <;> decide

/-- C7: in the post-swap timeline re-validation, for a chronologically adjacent
pair of non-soft, non-overlapping assignments the rest boundary is inclusive of
acceptance: a rest gap strictly below the configured minimum is rejected as a
`REST_WINDOW` rule violation, and a gap exactly equal to the minimum passes. -/
theorem claim_C7_rest_window_boundary (prev current : Shift) (cfg : RuleConfig)
    (resident : Resident) (softTypes : List ShiftType)
    (hsoftp : prev.type ∉ softTypes) (hsoftc : current.type ∉ softTypes)
    (horder : prev.startISO ≤ current.startISO)
    (hwf : current.startISO < current.endISO)
    (hnoov : hasOverlap prev.startISO prev.endISO current.startISO current.endISO = false) :
    ((evaluatePair prev current cfg resident softTypes =
        Except.error ⟨.REST_WINDOW, resident.id⟩) ↔
      diffHours current.startISO prev.endISO < cfg.restHoursMin)
    ∧ (diffHours current.startISO prev.endISO = cfg.restHoursMin →
        evaluatePair prev current cfg resident softTypes = .ok []) := by
  have hge : prev.endISO ≤ current.startISO := by
    by_contra hlt
    push_neg at hlt
    have h1 : prev.startISO < current.endISO := lt_of_le_of_lt horder hwf
    simp [hasOverlap, h1, hlt] at hnoov
  have hgap : 0 ≤ diffHours current.startISO prev.endISO := by
    have hsub : (0 : Rat) ≤ ((current.startISO - prev.endISO : Int) : Rat) := by
      exact_mod_cast Int.sub_nonneg.mpr hge
    exact div_nonneg hsub (by norm_num)
  constructor
  · by_cases hpos : 0 < cfg.restHoursMin
    · by_cases hlt : diffHours current.startISO prev.endISO < cfg.restHoursMin
      · simp [evaluatePair, hnoov, hsoftp, hsoftc, hpos, hlt, Bind.bind, Except.bind]
      · simp [evaluatePair, hnoov, hsoftp, hsoftc, hpos, hlt, Bind.bind, Except.bind]
    · have : ¬ diffHours current.startISO prev.endISO < cfg.restHoursMin := by
        intro h
        exact hpos (lt_of_le_of_lt hgap h)
      simp [evaluatePair, hnoov, hsoftp, hsoftc, hpos, this, Bind.bind, Except.bind]
  · intro heq
    have hnlt : ¬ diffHours current.startISO prev.endISO < cfg.restHoursMin := by
      rw [heq]
      exact lt_irrefl _
    by_cases hpos : 0 < cfg.restHoursMin <;>
      simp [evaluatePair, hnoov, hsoftp, hsoftc, hpos, hnlt, Bind.bind, Except.bind]

/-- C7 witness: a 12h shift followed after exactly 8h of rest under an
8h minimum is accepted, and the strict inequality characterisation holds. -/
theorem claim_C7_rest_window_boundary_witness :
    evaluatePair ⟨"P", "R1", 0, 720, .MOSES, none, false⟩
        ⟨"C", "R1", 1200, 2000, .MOSES, none, false⟩ ⟨8, []⟩
        ⟨"R1", "R1", [.MOSES], [], []⟩ [] = .ok [] := by
  have h := claim_C7_rest_window_boundary ⟨"P", "R1", 0, 720, .MOSES, none, false⟩
    ⟨"C", "R1", 1200, 2000, .MOSES, none, false⟩ ⟨8, []⟩
    ⟨"R1", "R1", [.MOSES], [], []⟩ []
    (by decide) (by decide) (by decide) (by decide) (by decide)
  refine h.2 ?_
  show ((1200 - 720 : Int) : Rat) / 60 = 8
  norm_num

theorem findRotationConflict_isSome (shift : Shift) (resident : Resident)
    (shiftDates : List Int) (l : List RotationAssignment) :
    (findRotationConflict shift resident shiftDates l).isSome ↔
      ∃ a ∈ l, isRotationBlockedForResident a resident shift = true
        ∧ ∃ d ∈ shiftDates, d ∈ collectRotationBlockedDates a := by
  induction l with
  | nil => simp [findRotationConflict]
  | cons head tail ih =>
    simp only [findRotationConflict]
    by_cases hb : isRotationBlockedForResident head resident shift = true
    · rw [if_pos hb]
      by_cases hc : shiftDates.filter
          (fun d => decide (d ∈ collectRotationBlockedDates head)) ≠ []
      · rw [if_pos hc]
        simp only [Option.isSome_some, true_iff]
        obtain ⟨d, hd⟩ := List.exists_mem_of_ne_nil _ hc
        obtain ⟨hd1, hd2⟩ := List.mem_filter.mp hd
        exact ⟨head, List.mem_cons_self _ _, hb, d, hd1, by simpa using hd2⟩
      · rw [if_neg hc]
        push_neg at hc
        have hnone : ∀ d ∈ shiftDates, d ∉ collectRotationBlockedDates head := by
          intro d hd hdm
          have := List.filter_eq_nil_iff.mp hc d hd
          simp at this
          exact this hdm
        rw [ih]
        constructor
        · rintro ⟨a, ha, h1, h2⟩
          exact ⟨a, List.mem_cons_of_mem _ ha, h1, h2⟩
        · rintro ⟨a, ha, h1, d, hd, hdm⟩
          rcases List.mem_cons.mp ha with rfl | ha'
          · exact absurd hdm (hnone d hd)
          · exact ⟨a, ha', h1, d, hd, hdm⟩
    · rw [if_neg hb]
      rw [ih]
      constructor
      · rintro ⟨a, ha, h1, h2⟩
        exact ⟨a, List.mem_cons_of_mem _ ha, h1, h2⟩
      · rintro ⟨a, ha, h1, h2⟩
        rcases List.mem_cons.mp ha with rfl | ha'
        · exact absurd h1 hb
        · exact ⟨a, ha', h1, h2⟩

/-- C6 (amended): a blocking rotation assignment blocks exactly the two days
before its week start, the seven days of its week, and days 12 and 13 after its
week start (for a Monday week start: the weekend before the rotation week and
the weekend ending the following week — not days 7 and 8); and a rotation-block
conflict is raised exactly when some calendar day spanned by the incoming
assignment falls in the blocked reach of some blocking assignment. -/
theorem claim_C6_rotation_block_reach (assignment : RotationAssignment)
    (shift : Shift) (resident : Resident) :
    (∀ d : Int, d ∈ collectRotationBlockedDates assignment ↔
      ((dayIdx assignment.weekStartISO - 2 ≤ d ∧ d ≤ dayIdx assignment.weekStartISO + 6)
        ∨ d = dayIdx assignment.weekStartISO + 12
        ∨ d = dayIdx assignment.weekStartISO + 13))
    ∧ ((shiftRotationConflicts shift resident).isSome ↔
        ∃ a ∈ resident.rotations, isRotationBlockedForResident a resident shift = true
          ∧ ∃ d ∈ enumerateShiftCalendarDays shift, d ∈ collectRotationBlockedDates a) := by
  constructor
  · intro d
    have hrange : List.range 7 = [0, 1, 2, 3, 4, 5, 6] := rfl
    have hlist : collectRotationBlockedDates assignment =
        [dayIdx assignment.weekStartISO - 2, dayIdx assignment.weekStartISO - 1,
          dayIdx assignment.weekStartISO + 0, dayIdx assignment.weekStartISO + 1,
          dayIdx assignment.weekStartISO + 2, dayIdx assignment.weekStartISO + 3,
          dayIdx assignment.weekStartISO + 4, dayIdx assignment.weekStartISO + 5,
          dayIdx assignment.weekStartISO + 6, dayIdx assignment.weekStartISO + 12,
          dayIdx assignment.weekStartISO + 13] := by
      simp [collectRotationBlockedDates, hrange]
    rw [hlist]
    simp only [List.mem_cons, List.not_mem_nil, or_false]
    omega
  · by_cases hrot : resident.rotations = []
    · simp [shiftRotationConflicts, hrot]
    · by_cases hdates : enumerateShiftCalendarDays shift = []
      · simp [shiftRotationConflicts, hrot, hdates]
      · have hred : shiftRotationConflicts shift resident =
            findRotationConflict shift resident (enumerateShiftCalendarDays shift)
              resident.rotations := by
          simp [shiftRotationConflicts, hrot, hdates]
        rw [hred]
        exact findRotationConflict_isSome shift resident _ _

/-- C6 counterexample: a `Vacation` rotation with week start Monday 2025-10-06
(day 20367).  An incoming assignment on 2025-10-13 — day 7 after the week
start, within "2 days after the week end" as the claim reads — raises no
rotation-block conflict, and the full evaluation accepts the swap. -/
theorem claim_C6_rotation_block_counterexample :
    (isRotationBlockedForResident ⟨20367 * 1440, "Vacation", "Vacation", []⟩
        ⟨"R1", "R1", [.MOSES], [⟨20367 * 1440, "Vacation", "Vacation", []⟩], []⟩
        ⟨"S2", "R1", 20374 * 1440 + 480, 20374 * 1440 + 1200, .MOSES, none, false⟩ = true)
    ∧ (∀ d ∈ enumerateShiftCalendarDays
          ⟨"S2", "R1", 20374 * 1440 + 480, 20374 * 1440 + 1200, .MOSES, none, false⟩,
        dayIdx ((20367 : Int) * 1440) - 2 ≤ d ∧ d ≤ dayIdx ((20367 : Int) * 1440) + 6 + 2)
    ∧ enumerateShiftCalendarDays
        ⟨"S2", "R1", 20374 * 1440 + 480, 20374 * 1440 + 1200, .MOSES, none, false⟩ ≠ []
    ∧ shiftRotationConflicts
        ⟨"S2", "R1", 20374 * 1440 + 480, 20374 * 1440 + 1200, .MOSES, none, false⟩
        ⟨"R1", "R1", [.MOSES], [⟨20367 * 1440, "Vacation", "Vacation", []⟩], []⟩ = none
    ∧ evaluateSwap
        (some ⟨"S1", "R1", 20362 * 1440 + 480, 20362 * 1440 + 1200, .MOSES, none, false⟩)
        (some ⟨"S2", "R2", 20374 * 1440 + 480, 20374 * 1440 + 1200, .MOSES, none, false⟩)
        (some ⟨⟨8, []⟩,
          [("R1", ⟨"R1", "R1", [.MOSES], [⟨20367 * 1440, "Vacation", "Vacation", []⟩], []⟩),
            ("R2", ⟨"R2", "R2", [.MOSES], [], []⟩)],
          [("R1", [⟨"S1", "R1", 20362 * 1440 + 480, 20362 * 1440 + 1200, .MOSES, none, false⟩]),
            ("R2", [⟨"S2", "R2", 20374 * 1440 + 480, 20374 * 1440 + 1200, .MOSES, none, false⟩])],
          ["R1", "R2"]⟩) = .feasible [] := by
  decide

theorem getMosesTier_isSome_type (s : Shift) (t : MosesTier)
    (h : getMosesTier s = some t) : s.type = .MOSES := by
  by_cases hm : s.type = .MOSES
  · exact hm
  · simp [getMosesTier, hm] at h

theorem evaluateShabbosRestriction_kind (resident : Resident) (incoming : Shift)
    (observers : List String) (r : SwapRejectionReason)
    (h : evaluateShabbosRestriction resident incoming observers = some r) :
    r.kind = "shabbos-restriction" := by
  simp only [evaluateShabbosRestriction, buildShabbosRestriction] at h
  split_ifs at h <;>
    first
      | (injection h with h; subst h; rfl)
      | simp_all

theorem resolveShabbosRestrictionForSwap_kind (observers : List String)
    (l : List (Resident × Shift)) (r : SwapRejectionReason)
    (h : resolveShabbosRestrictionForSwap observers l = some r) :
    r.kind = "shabbos-restriction" := by
  induction l with
  | nil => simp [resolveShabbosRestrictionForSwap] at h
  | cons entry rest ih =>
    unfold resolveShabbosRestrictionForSwap at h
    split at h
    · next heq =>
      cases h
      exact evaluateShabbosRestriction_kind _ _ _ _ heq
    · exact ih h

theorem prepareSwapTail_error_kind (sa sb : Shift) (c : Context)
    (ra rb : Resident) (r : SwapRejectionReason)
    (h : prepareSwapTail sa sb c ra rb = .error r) :
    r.kind = "weekend-mismatch" ∨ r.kind = "type-whitelist"
      ∨ r.kind = "eligibility-a" ∨ r.kind = "eligibility-b" := by
  simp only [prepareSwapTail] at h
  split_ifs at h <;>
    first
      | (injection h with h; subst h; simp [SwapRejectionReason.kind])
      | simp_all

theorem evaluateSwapPrepared_infeasible_kind (p : PreparedSwap)
    (r : SwapRejectionReason) (advs : List SwapAdvisory)
    (h : evaluateSwapPrepared p = .infeasible r advs) :
    r.kind = "shabbos-restriction" ∨ r.kind = "vacation-conflict"
      ∨ r.kind = "rotation-block" ∨ r.kind = "rule-violation" := by
  simp only [evaluateSwapPrepared] at h
  repeat' split at h
  all_goals
    first
      | (rename_i heq
         injection h with h1 h2
         subst h1
         first
           | exact Or.inl (resolveShabbosRestrictionForSwap_kind _ _ _ heq)
           | simp [SwapRejectionReason.kind])
      | (injection h with h1 h2
         subst h1
         simp [SwapRejectionReason.kind])
      | cases h

theorem prepareSwap_mismatch_char (a b : Shift) (ctx : Context)
    (r : SwapRejectionReason)
    (h : prepareSwap (some a) (some b) (some ctx) = .error r)
    (hk : r.kind = "moses-tier-mismatch") :
    ∃ tA tB, getMosesTier a = some tA ∧ getMosesTier b = some tB ∧ tA ≠ tB
      ∧ r = .mosesTierMismatch a.id b.id tA tB := by
  simp only [prepareSwap] at h
  split_ifs at h
  · cases h
    simp [SwapRejectionReason.kind] at hk
  · cases h
    simp [SwapRejectionReason.kind] at hk
  · split at h
    · next residentA residentB heqA heqB =>
      split at h
      · next tA tB heqTA heqTB =>
        split_ifs at h with hne
        · cases h
          exact ⟨tA, tB, heqTA, heqTB, hne, rfl⟩
        · rcases prepareSwapTail_error_kind _ _ _ _ _ _ h with h' | h' | h' | h' <;>
            rw [h'] at hk <;> simp at hk
      · rcases prepareSwapTail_error_kind _ _ _ _ _ _ h with h' | h' | h' | h' <;>
          rw [h'] at hk <;> simp at hk
    · next heq =>
      cases h
      simp [SwapRejectionReason.kind] at hk

/-- C9: the tier-mismatch gate fires only when both tiers are determinable.
Any `moses-tier-mismatch` rejection implies both shifts are MOSES shifts whose
tiers resolve and differ (so an unresolvable tier never causes it), and
conversely, once the earlier gates pass (distinct shifts, distinct resolvable
residents), resolvable unequal tiers produce exactly this rejection. -/
theorem claim_C9_moses_tier_mismatch :
    (∀ (a b : Shift) (ctx : Context) (r : SwapRejectionReason) (advs : List SwapAdvisory),
      evaluateSwap (some a) (some b) (some ctx) = .infeasible r advs →
      r.kind = "moses-tier-mismatch" →
      a.type = .MOSES ∧ b.type = .MOSES ∧ (getMosesTier a).isSome = true
        ∧ (getMosesTier b).isSome = true ∧ getMosesTier a ≠ getMosesTier b)
    ∧ (∀ (a b : Shift) (ctx : Context) (residentA residentB : Resident)
        (tA tB : MosesTier),
      a.id ≠ b.id → a.residentId ≠ b.residentId →
      alookup a.residentId ctx.residentsById = some residentA →
      alookup b.residentId ctx.residentsById = some residentB →
      getMosesTier a = some tA → getMosesTier b = some tB → tA ≠ tB →
      evaluateSwap (some a) (some b) (some ctx) =
        .infeasible (.mosesTierMismatch a.id b.id tA tB) []) := by
  constructor
  · intro a b ctx r advs h hk
    unfold evaluateSwap at h
    cases hp : prepareSwap (some a) (some b) (some ctx) with
    | error f =>
      rw [hp] at h
      cases h
      obtain ⟨tA, tB, hta, htb, hne, rfl⟩ := prepareSwap_mismatch_char a b ctx _ hp hk
      exact ⟨getMosesTier_isSome_type a tA hta, getMosesTier_isSome_type b tB htb,
        by simp [hta], by simp [htb], by simp [hta, htb, hne]⟩
    | ok p =>
      rw [hp] at h
      rcases evaluateSwapPrepared_infeasible_kind p r advs h with h' | h' | h' | h' <;>
        rw [h'] at hk <;> simp at hk
  · intro a b ctx residentA residentB tA tB hid hres hla hlb hta htb hne
    have hprep : prepareSwap (some a) (some b) (some ctx) =
        .error (.mosesTierMismatch a.id b.id tA tB) := by
      simp only [prepareSwap, hla, hlb, hta, htb]
      rw [if_neg hid, if_neg hres, if_pos hne]
    simp [evaluateSwap, hprep]

/-- C9 witness: two MOSES shifts whose ids resolve to junior and senior tiers
are rejected with a tier mismatch. -/
theorem claim_C9_moses_tier_mismatch_witness :
    evaluateSwap (some ⟨"moses_jr_1", "R1", 480, 1200, .MOSES, none, false⟩)
        (some ⟨"moses_sr_1", "R2", 1920, 2640, .MOSES, none, false⟩)
        (some ⟨⟨8, []⟩, [("R1", ⟨"R1", "R1", [.MOSES], [], []⟩),
          ("R2", ⟨"R2", "R2", [.MOSES], [], []⟩)], [], []⟩) =
      .infeasible (.mosesTierMismatch "moses_jr_1" "moses_sr_1" .junior .senior) [] := by
  exact claim_C9_moses_tier_mismatch.2
    ⟨"moses_jr_1", "R1", 480, 1200, .MOSES, none, false⟩
    ⟨"moses_sr_1", "R2", 1920, 2640, .MOSES, none, false⟩
    ⟨⟨8, []⟩, [("R1", ⟨"R1", "R1", [.MOSES], [], []⟩),
      ("R2", ⟨"R2", "R2", [.MOSES], [], []⟩)], [], []⟩
    ⟨"R1", "R1", [.MOSES], [], []⟩ ⟨"R2", "R2", [.MOSES], [], []⟩ .junior .senior
    (by decide) (by decide) (by decide) (by decide) (by decide) (by decide) (by decide)

theorem evaluatePair_eq_of_nonpos (prev current : Shift) (cfg : RuleConfig)
    (resident : Resident) (softTypes : List ShiftType)
    (hmin : cfg.restHoursMin ≤ 0) :
    evaluatePair prev current cfg resident softTypes =
      if hasOverlap prev.startISO prev.endISO current.startISO current.endISO then
        if prev.type ∈ softTypes ∨ current.type ∈ softTypes then
          .ok [buildOverlapAdvisory prev current resident softTypes]
        else .error ⟨.OVERLAP, resident.id⟩
      else .ok [] := by
  have hpos : ¬ (0 : Rat) < cfg.restHoursMin := not_lt.mpr hmin
  by_cases hov : hasOverlap prev.startISO prev.endISO current.startISO current.endISO = true <;>
    by_cases hsoft : prev.type ∈ softTypes ∨ current.type ∈ softTypes <;>
      simp [evaluatePair, hov, hsoft, hpos, Bind.bind, Except.bind]

theorem validateAdjacentPairs_no_rest (cfg : RuleConfig) (resident : Resident)
    (softTypes : List ShiftType) (focus : Option (List String))
    (hmin : cfg.restHoursMin ≤ 0) (l : List Shift) :
    (∀ e, validateAdjacentPairs cfg resident softTypes focus l = .error e →
      e.code = .OVERLAP)
    ∧ (∀ advs, validateAdjacentPairs cfg resident softTypes focus l = .ok advs →
        ∀ adv ∈ advs, adv.code = .OVERLAP) := by
  induction l with
  | nil => simp [validateAdjacentPairs]
  | cons prev rest ih =>
    cases rest with
    | nil => simp [validateAdjacentPairs]
    | cons current rest2 =>
      have hep : (∀ e, evaluatePair prev current cfg resident softTypes = .error e →
            e.code = .OVERLAP)
          ∧ (∀ advs, evaluatePair prev current cfg resident softTypes = .ok advs →
              ∀ adv ∈ advs, adv.code = .OVERLAP) := by
        rw [evaluatePair_eq_of_nonpos prev current cfg resident softTypes hmin]
        by_cases hov : hasOverlap prev.startISO prev.endISO
            current.startISO current.endISO = true
        · by_cases hsoft : prev.type ∈ softTypes ∨ current.type ∈ softTypes
          · rw [if_pos hov, if_pos hsoft]
            constructor
            · intro e he
              cases he
            · intro advs hadvs adv hadv
              injection hadvs with hadvs
              rw [← hadvs] at hadv
              simp at hadv
              subst hadv
              rfl
          · rw [if_pos hov, if_neg hsoft]
            constructor
            · intro e he
              injection he with he
              rw [← he]
            · intro advs hadvs
              cases hadvs
        · rw [if_neg hov]
          constructor
          · intro e he
            cases he
          · intro advs hadvs adv hadv
            injection hadvs with hadvs
            rw [← hadvs] at hadv
            simp at hadv
      constructor
      · intro e he
        simp only [validateAdjacentPairs, Bind.bind, Except.bind] at he
        split at he
        · split at he
          · next err heq2 =>
            injection he with he
            subst he
            exact hep.1 _ heq2
          · split at he
            · next err heq3 =>
              injection he with he
              subst he
              exact ih.1 _ heq3
            · cases he
        · split at he
          · next err heq3 =>
            injection he with he
            subst he
            exact ih.1 _ heq3
          · cases he
      · intro advs hadvs adv hadv
        simp only [validateAdjacentPairs, Bind.bind, Except.bind] at hadvs
        split at hadvs
        · split at hadvs
          · cases hadvs
          · next v heq2 =>
            split at hadvs
            · cases hadvs
            · next v2 heq3 =>
              injection hadvs with hadvs
              rw [← hadvs] at hadv
              rcases List.mem_append.mp hadv with h1 | h2
              · exact hep.2 _ heq2 _ h1
              · exact ih.2 _ heq3 _ h2
        · split at hadvs
          · cases hadvs
          · next v2 heq3 =>
            injection hadvs with hadvs
            rw [← hadvs] at hadv
            simp only [List.nil_append] at hadv
            exact ih.2 _ heq3 _ hadv

theorem checkShiftsAllowed_code (cfg : RuleConfig) (resident : Resident)
    (focus : Option (List String)) (l : List Shift) (e : RuleViolationError)
    (h : checkShiftsAllowed cfg resident focus l = .error e) :
    e.code = .TYPE_WHITELIST ∨ e.code = .ELIGIBILITY := by
  induction l with
  | nil => simp [checkShiftsAllowed] at h
  | cons shift rest ih =>
    simp only [checkShiftsAllowed, Bind.bind, Except.bind] at h
    split_ifs at h
    · split at h
      · next e' heq =>
        injection h with h1
        subst h1
        unfold assertShiftAllowed at heq
        split_ifs at heq <;>
          first
            | (injection heq with heq
               rw [← heq]
               simp)
            | cases heq
      · exact ih h
    · exact ih h

theorem validateResidentTimeline_no_rest (shifts : List Shift) (cfg : RuleConfig)
    (resident : Resident) (options : Option TimelineValidationOptions)
    (hmin : cfg.restHoursMin ≤ 0) :
    (∀ e, validateResidentTimeline shifts cfg resident options = .error e →
      e.code ≠ .REST_WINDOW)
    ∧ (∀ advs, validateResidentTimeline shifts cfg resident options = .ok advs →
        ∀ adv ∈ advs, adv.code ≠ .REST_WINDOW) := by
  constructor
  · intro e he
    simp only [validateResidentTimeline] at he
    split at he
    · next e' heq =>
      cases he
      rcases checkShiftsAllowed_code _ _ _ _ _ heq with h | h <;> simp [h]
    · have := (validateAdjacentPairs_no_rest cfg resident _ _ hmin _).1 _ he
      simp [this]
  · intro advs hadvs adv hadv
    simp only [validateResidentTimeline] at hadvs
    split at hadvs
    · cases hadvs
    · have := (validateAdjacentPairs_no_rest cfg resident _ _ hmin _).2 _ hadvs _ hadv
      simp [this]

theorem runSwapTimelines_no_rest (timelineA timelineB : List Shift) (cfg : RuleConfig)
    (residentA residentB : Resident) (focusA focusB : String)
    (hmin : cfg.restHoursMin ≤ 0) :
    (∀ e advs, runSwapTimelines timelineA timelineB cfg residentA residentB focusA focusB =
        .error (e, advs) →
      e.code ≠ .REST_WINDOW ∧ ∀ adv ∈ advs, adv.code ≠ .REST_WINDOW)
    ∧ (∀ advs, runSwapTimelines timelineA timelineB cfg residentA residentB focusA focusB =
        .ok advs → ∀ adv ∈ advs, adv.code ≠ .REST_WINDOW) := by
  constructor
  · intro e advs h
    simp only [runSwapTimelines] at h
    split at h
    · next e' heq =>
      cases h
      exact ⟨(validateResidentTimeline_no_rest _ _ _ _ hmin).1 _ heq, by simp⟩
    · next advsA heq =>
      split at h
      · next e2 heq2 =>
        cases h
        exact ⟨(validateResidentTimeline_no_rest _ _ _ _ hmin).1 _ heq2,
          (validateResidentTimeline_no_rest _ _ _ _ hmin).2 _ heq⟩
      · cases h
  · intro advs h adv hadv
    simp only [runSwapTimelines] at h
    split at h
    · cases h
    · next advsA heq =>
      split at h
      · cases h
      · next advsB heq2 =>
        injection h with h
        rw [← h] at hadv
        rcases List.mem_append.mp hadv with h1 | h2
        · exact (validateResidentTimeline_no_rest _ _ _ _ hmin).2 _ heq _ h1
        · exact (validateResidentTimeline_no_rest _ _ _ _ hmin).2 _ heq2 _ h2

theorem prepareSwap_error_kind_ne_ruleViolation (a b : Option Shift)
    (ctx : Option Context) (r : SwapRejectionReason)
    (h : prepareSwap a b ctx = .error r) : r.kind ≠ "rule-violation" := by
  simp only [prepareSwap] at h
  repeat' split at h
  all_goals
    first
      | (injection h with h1
         subst h1
         simp [SwapRejectionReason.kind])
      | (rename_i heq
         intro hk
         rcases prepareSwapTail_error_kind _ _ _ _ _ _ h with h' | h' | h' | h' <;>
           rw [h'] at hk <;> simp at hk)
      | cases h

theorem prepareSwapTail_ok_ctx (sa sb : Shift) (c : Context) (ra rb : Resident)
    (p : PreparedSwap) (h : prepareSwapTail sa sb c ra rb = .ok p) : p.ctx = c := by
  simp only [prepareSwapTail] at h
  split_ifs at h <;> cases h <;> rfl

theorem prepareSwap_ok_ctx (a b : Shift) (c : Context) (p : PreparedSwap)
    (h : prepareSwap (some a) (some b) (some c) = .ok p) : p.ctx = c := by
  simp only [prepareSwap] at h
  repeat' split at h
  all_goals
    first
      | cases h
      | exact prepareSwapTail_ok_ctx _ _ _ _ _ _ h

theorem evaluateSwapPrepared_no_rest (p : PreparedSwap)
    (hmin : p.ctx.ruleConfig.restHoursMin ≤ 0) :
    (∀ r advs, evaluateSwapPrepared p = .infeasible r advs →
      (∀ rid sA sB, r ≠ .ruleViolation .REST_WINDOW rid sA sB)
      ∧ ∀ adv ∈ advs, adv.code ≠ SwapAdvisoryCode.REST_WINDOW)
    ∧ (∀ advs, evaluateSwapPrepared p = .feasible advs →
        ∀ adv ∈ advs, adv.code ≠ SwapAdvisoryCode.REST_WINDOW) := by
  constructor
  · intro r advs h
    simp only [evaluateSwapPrepared] at h
    repeat' split at h
    all_goals
      first
        | (injection h with h1 h2
           subst h1
           subst h2
           refine ⟨?_, ?_⟩
           · intro rid sA sB hcontra
             simp at hcontra
           · intro adv hadv
             simp at hadv)
        | (rename_i heq
           injection h with h1 h2
           subst h1
           subst h2
           refine ⟨?_, ?_⟩
           · intro rid sA sB hcontra
             have hk := resolveShabbosRestrictionForSwap_kind _ _ _ heq
             rw [hcontra] at hk
             simp [SwapRejectionReason.kind] at hk
           · intro adv hadv
             simp at hadv)
        | (rename_i heq
           injection h with h1 h2
           subst h1
           subst h2
           have hrun := (runSwapTimelines_no_rest _ _ _ _ _ _ _ hmin).1 _ _ heq
           refine ⟨?_, hrun.2⟩
           intro rid sA sB hcontra
           injection hcontra with hc1 hc2 hc3 hc4
           exact absurd hc1 hrun.1)
        | cases h
  · intro advs h adv hadv
    simp only [evaluateSwapPrepared] at h
    repeat' split at h
    all_goals
      first
        | (rename_i heq
           injection h with h1
           subst h1
           exact (runSwapTimelines_no_rest _ _ _ _ _ _ _ hmin).2 _ heq _ hadv)
        | cases h

theorem hasAssociatedIpConsult_congr (s : Shift) (c1 c2 : Context)
    (h : c1.shiftsByResident = c2.shiftsByResident) :
    hasAssociatedIpConsult s c1 = hasAssociatedIpConsult s c2 := by
  simp [hasAssociatedIpConsult, h]

theorem resolveIpConsultPenalty_congr (a b : Shift) (c1 c2 : Context)
    (h : c1.shiftsByResident = c2.shiftsByResident) :
    resolveIpConsultPenalty a b c1 = resolveIpConsultPenalty a b c2 := by
  simp only [resolveIpConsultPenalty,
    hasAssociatedIpConsult_congr a c1 c2 h, hasAssociatedIpConsult_congr b c1 c2 h]

/-- C10: a zero or negative configured minimum rest skips the rest-window
check entirely — no `REST_WINDOW` rule violation and no `REST_WINDOW`
advisory can be produced (only overlap can still reject in the timeline
re-validation) — and the scoring engine clamps the minimum rest to zero, so
the score is the one computed with minimum 0. -/
theorem claim_C10_nonpositive_rest_min :
    (∀ (a b : Option Shift) (ctx : Context), ctx.ruleConfig.restHoursMin ≤ 0 →
      (∀ r advs, evaluateSwap a b (some ctx) = .infeasible r advs →
        (∀ rid sA sB, r ≠ .ruleViolation .REST_WINDOW rid sA sB)
        ∧ ∀ adv ∈ advs, adv.code ≠ SwapAdvisoryCode.REST_WINDOW)
      ∧ (∀ advs, evaluateSwap a b (some ctx) = .feasible advs →
          ∀ adv ∈ advs, adv.code ≠ SwapAdvisoryCode.REST_WINDOW))
    ∧ (∀ (a b : Shift) (ctx : Context) (m : Rat), m ≤ 0 →
        calculateSwapPressure a b
            { ctx with ruleConfig := { ctx.ruleConfig with restHoursMin := m } } =
          calculateSwapPressure a b
            { ctx with ruleConfig := { ctx.ruleConfig with restHoursMin := 0 } }) := by
  constructor
  · intro a b ctx hmin
    constructor
    · intro r advs h
      unfold evaluateSwap at h
      cases hp : prepareSwap a b (some ctx) with
      | error f =>
        rw [hp] at h
        injection h with h1 h2
        subst h1
        subst h2
        constructor
        · intro rid sA sB hcontra
          have hk := prepareSwap_error_kind_ne_ruleViolation a b (some ctx) _ hp
          rw [hcontra] at hk
          simp [SwapRejectionReason.kind] at hk
        · intro adv hadv
          simp at hadv
      | ok p =>
        rw [hp] at h
        have hctx : a.isSome = true ∧ b.isSome = true := by
          cases a <;> cases b <;> first | (exact ⟨rfl, rfl⟩) | simp [prepareSwap] at hp
        obtain ⟨sa, rfl⟩ := Option.isSome_iff_exists.mp hctx.1
        obtain ⟨sb, rfl⟩ := Option.isSome_iff_exists.mp hctx.2
        have hpc := prepareSwap_ok_ctx sa sb ctx p hp
        have hmin' : p.ctx.ruleConfig.restHoursMin ≤ 0 := by rw [hpc]; exact hmin
        exact (evaluateSwapPrepared_no_rest p hmin').1 r advs h
    · intro advs h adv hadv
      unfold evaluateSwap at h
      cases hp : prepareSwap a b (some ctx) with
      | error f =>
        rw [hp] at h
        cases h
      | ok p =>
        rw [hp] at h
        have hctx : a.isSome = true ∧ b.isSome = true := by
          cases a <;> cases b <;> first | (exact ⟨rfl, rfl⟩) | simp [prepareSwap] at hp
        obtain ⟨sa, rfl⟩ := Option.isSome_iff_exists.mp hctx.1
        obtain ⟨sb, rfl⟩ := Option.isSome_iff_exists.mp hctx.2
        have hpc := prepareSwap_ok_ctx sa sb ctx p hp
        have hmin' : p.ctx.ruleConfig.restHoursMin ≤ 0 := by rw [hpc]; exact hmin
        exact (evaluateSwapPrepared_no_rest p hmin').2 advs h adv hadv
  · intro a b ctx m hm
    have hmax : max (0 : Rat) m = max (0 : Rat) 0 := by
      rw [max_eq_left hm, max_self]
    have hpen : resolveIpConsultPenalty a b
        { ctx with ruleConfig := { ctx.ruleConfig with restHoursMin := m } } =
        resolveIpConsultPenalty a b
          { ctx with ruleConfig := { ctx.ruleConfig with restHoursMin := 0 } } :=
      resolveIpConsultPenalty_congr a b _ _ rfl
    simp only [calculateSwapPressure, swapPressureScaled, swapPressurePrepared, hpen, hmax]

/-- C10 witness: with a negative minimum rest, a swap that would otherwise
trip the rest window is feasible with no `REST_WINDOW` advisory, and the
pressure equals the clamped-to-zero pressure. -/
theorem claim_C10_nonpositive_rest_min_witness :
    ((-8 : Rat) ≤ 0)
    ∧ (∀ advs, evaluateSwap
          (some ⟨"S1", "R1", 20362 * 1440 + 480, 20362 * 1440 + 1200, .MOSES, none, false⟩)
          (some ⟨"S2", "R2", 20363 * 1440 + 480, 20363 * 1440 + 1200, .MOSES, none, false⟩)
          (some ⟨⟨-8, []⟩, [("R1", ⟨"R1", "R1", [.MOSES], [], []⟩),
            ("R2", ⟨"R2", "R2", [.MOSES], [], []⟩)], [], []⟩) = .feasible advs →
          ∀ adv ∈ advs, adv.code ≠ SwapAdvisoryCode.REST_WINDOW)
    ∧ calculateSwapPressure
        ⟨"S1", "R1", 20362 * 1440 + 480, 20362 * 1440 + 1200, .MOSES, none, false⟩
        ⟨"S2", "R2", 20363 * 1440 + 480, 20363 * 1440 + 1200, .MOSES, none, false⟩
        ⟨⟨-8, []⟩, [("R1", ⟨"R1", "R1", [.MOSES], [], []⟩),
          ("R2", ⟨"R2", "R2", [.MOSES], [], []⟩)], [], []⟩ =
      calculateSwapPressure
        ⟨"S1", "R1", 20362 * 1440 + 480, 20362 * 1440 + 1200, .MOSES, none, false⟩
        ⟨"S2", "R2", 20363 * 1440 + 480, 20363 * 1440 + 1200, .MOSES, none, false⟩
        ⟨⟨0, []⟩, [("R1", ⟨"R1", "R1", [.MOSES], [], []⟩),
          ("R2", ⟨"R2", "R2", [.MOSES], [], []⟩)], [], []⟩ := by
  refine ⟨by norm_num, ?_, ?_⟩
  · intro advs h
    exact (claim_C10_nonpositive_rest_min.1
      (some ⟨"S1", "R1", 20362 * 1440 + 480, 20362 * 1440 + 1200, .MOSES, none, false⟩)
      (some ⟨"S2", "R2", 20363 * 1440 + 480, 20363 * 1440 + 1200, .MOSES, none, false⟩)
      ⟨⟨-8, []⟩, [("R1", ⟨"R1", "R1", [.MOSES], [], []⟩),
        ("R2", ⟨"R2", "R2", [.MOSES], [], []⟩)], [], []⟩
      (by norm_num)).2 advs h
  · exact claim_C10_nonpositive_rest_min.2
      ⟨"S1", "R1", 20362 * 1440 + 480, 20362 * 1440 + 1200, .MOSES, none, false⟩
      ⟨"S2", "R2", 20363 * 1440 + 480, 20363 * 1440 + 1200, .MOSES, none, false⟩
      ⟨⟨-8, []⟩, [("R1", ⟨"R1", "R1", [.MOSES], [], []⟩),
        ("R2", ⟨"R2", "R2", [.MOSES], [], []⟩)], [], []⟩
      (-8) (by norm_num)

/-- C8: the rule engine's public evaluation is total — every input yields a
typed accept or reject value — and an error raised during timeline
re-validation (always a `RuleViolationError` in the source's `try` block) is
caught and converted into a `rule-violation` rejection carrying the advisories
collected before the throw, so a batch never aborts because of one pair. -/
theorem claim_C8_never_throws :
    (∀ (a b : Option Shift) (ctx : Option Context),
      (∃ advs, evaluateSwap a b ctx = .feasible advs)
      ∨ (∃ r advs, evaluateSwap a b ctx = .infeasible r advs))
    ∧ (∀ (a b : Option Shift) (ctx : Option Context) (p : PreparedSwap)
        (e : RuleViolationError) (advisories : List SwapAdvisory),
        prepareSwap a b ctx = .ok p →
        resolveShabbosRestrictionForSwap p.ctx.shabbosObservers
          [(p.residentA, { p.shiftB with residentId := p.residentA.id }),
            (p.residentB, { p.shiftA with residentId := p.residentB.id })] = none →
        shiftVacationConflicts { p.shiftB with residentId := p.residentA.id } p.residentA = [] →
        shiftRotationConflicts { p.shiftB with residentId := p.residentA.id } p.residentA = none →
        shiftVacationConflicts { p.shiftA with residentId := p.residentB.id } p.residentB = [] →
        shiftRotationConflicts { p.shiftA with residentId := p.residentB.id } p.residentB = none →
        runSwapTimelines
          (((alookup p.shiftA.residentId p.ctx.shiftsByResident).getD []).filter
              (fun s => decide (s.id ≠ p.shiftA.id)) ++
            [{ p.shiftB with residentId := p.residentA.id }])
          (((alookup p.shiftB.residentId p.ctx.shiftsByResident).getD []).filter
              (fun s => decide (s.id ≠ p.shiftB.id)) ++
            [{ p.shiftA with residentId := p.residentB.id }])
          p.ctx.ruleConfig p.residentA p.residentB p.shiftB.id p.shiftA.id =
          .error (e, advisories) →
        evaluateSwap a b ctx =
          .infeasible (.ruleViolation e.code e.residentId p.shiftA.id p.shiftB.id)
            advisories) := by
  constructor
  · intro a b ctx
    cases hev : evaluateSwap a b ctx with
    | feasible advs => exact Or.inl ⟨advs, rfl⟩
    | infeasible r advs => exact Or.inr ⟨r, advs, rfl⟩
  · intro a b ctx p e advisories hprep hsh hvA hrA hvB hrB hrun
    unfold evaluateSwap
    rw [hprep]
    simp only [evaluateSwapPrepared, hsh, hvA, hrA, hvB, hrB, hrun]
    simp

/-- C8 witness: a prepared swap whose post-swap timeline has an overlap is
rejected as a `rule-violation` instead of aborting. -/
theorem claim_C8_never_throws_witness :
    evaluateSwap
      (some ⟨"S1", "R1", 20362 * 1440 + 480, 20362 * 1440 + 1200, .MOSES, none, false⟩)
      (some ⟨"S2", "R2", 20363 * 1440 + 480, 20363 * 1440 + 1200, .MOSES, none, false⟩)
      (some ⟨⟨8, []⟩,
        [("R1", ⟨"R1", "R1", [.MOSES], [], []⟩), ("R2", ⟨"R2", "R2", [.MOSES], [], []⟩)],
        [("R1", [⟨"S1", "R1", 20362 * 1440 + 480, 20362 * 1440 + 1200, .MOSES, none, false⟩,
          ⟨"X", "R1", 20363 * 1440 + 600, 20363 * 1440 + 1080, .MOSES, none, false⟩]),
          ("R2", [⟨"S2", "R2", 20363 * 1440 + 480, 20363 * 1440 + 1200, .MOSES, none, false⟩])],
        []⟩) =
      .infeasible (.ruleViolation .OVERLAP "R1" "S1" "S2") [] := by
  exact claim_C8_never_throws.2
    (some ⟨"S1", "R1", 20362 * 1440 + 480, 20362 * 1440 + 1200, .MOSES, none, false⟩)
    (some ⟨"S2", "R2", 20363 * 1440 + 480, 20363 * 1440 + 1200, .MOSES, none, false⟩)
    (some ⟨⟨8, []⟩,
      [("R1", ⟨"R1", "R1", [.MOSES], [], []⟩), ("R2", ⟨"R2", "R2", [.MOSES], [], []⟩)],
      [("R1", [⟨"S1", "R1", 20362 * 1440 + 480, 20362 * 1440 + 1200, .MOSES, none, false⟩,
        ⟨"X", "R1", 20363 * 1440 + 600, 20363 * 1440 + 1080, .MOSES, none, false⟩]),
        ("R2", [⟨"S2", "R2", 20363 * 1440 + 480, 20363 * 1440 + 1200, .MOSES, none, false⟩])],
      []⟩)
    ⟨⟨⟨8, []⟩,
      [("R1", ⟨"R1", "R1", [.MOSES], [], []⟩), ("R2", ⟨"R2", "R2", [.MOSES], [], []⟩)],
      [("R1", [⟨"S1", "R1", 20362 * 1440 + 480, 20362 * 1440 + 1200, .MOSES, none, false⟩,
        ⟨"X", "R1", 20363 * 1440 + 600, 20363 * 1440 + 1080, .MOSES, none, false⟩]),
        ("R2", [⟨"S2", "R2", 20363 * 1440 + 480, 20363 * 1440 + 1200, .MOSES, none, false⟩])],
      []⟩,
      ⟨"S1", "R1", 20362 * 1440 + 480, 20362 * 1440 + 1200, .MOSES, none, false⟩,
      ⟨"S2", "R2", 20363 * 1440 + 480, 20363 * 1440 + 1200, .MOSES, none, false⟩,
      ⟨"R1", "R1", [.MOSES], [], []⟩, ⟨"R2", "R2", [.MOSES], [], []⟩⟩
    ⟨.OVERLAP, "R1"⟩ []
    (by decide) (by decide) (by decide) (by decide) (by decide) (by decide) (by decide)

theorem sum_map_sub (l : List α) (f g : α → Rat) :
    (l.map fun x => f x - g x).sum = (l.map f).sum - (l.map g).sum := by
  induction l with
  | nil => simp
  | cons x xs ih =>
    simp [ih]
    ring

theorem insertSorted_perm (le : α → α → Bool) (x : α) (l : List α) :
    (insertSorted le x l).Perm (x :: l) := by
  induction l with
  | nil => exact List.Perm.refl _
  | cons y ys ih =>
    unfold insertSorted
    split_ifs with h
    · exact List.Perm.refl _
    · exact (List.Perm.cons y ih).trans (List.Perm.swap x y ys)

theorem stableSortBy_perm (le : α → α → Bool) (l : List α) :
    (stableSortBy le l).Perm l := by
  induction l with
  | nil => exact List.Perm.refl _
  | cons x xs ih =>
    exact (insertSorted_perm le x (stableSortBy le xs)).trans (List.Perm.cons x ih)

theorem section_mk_consistent (rid fid : String) (wh : Rat) (entries : List α)
    (f : α → SwapPressureCall)
    (hmk : ∀ e, (f e).delta = (f e).swapped - (f e).baseline) :
    SectionConsistent
      ⟨rid, fid, wh, stableSortBy callCompareLe (entries.map f),
        ((entries.map f).map (·.baseline)).sum,
        ((entries.map f).map (·.swapped)).sum,
        ((entries.map f).map (·.swapped)).sum - ((entries.map f).map (·.baseline)).sum⟩ := by
  constructor
  · show _ = ((stableSortBy callCompareLe (entries.map f)).map SwapPressureCall.delta).sum
    rw [((stableSortBy_perm callCompareLe (entries.map f)).map SwapPressureCall.delta).sum_eq]
    have : (entries.map f).map SwapPressureCall.delta =
        (entries.map f).map fun c => c.swapped - c.baseline := by
      simp only [List.map_map]
      apply List.map_congr_left
      intro e _
      exact hmk e
    rw [this, sum_map_sub]
  · rfl

theorem buildSection_consistent (baselineShift swappedShift : Shift)
    (otherShifts : List Shift) (restMin : Rat) :
    SectionConsistent (buildSection baselineShift swappedShift otherShifts restMin) := by
  simp only [buildSection]
  split
  · exact ⟨by simp, by simp⟩
  · exact section_mk_consistent _ _ _ _ _ fun e => rfl

theorem section_scale_consistent (s : SwapPressureSection) (factor : Rat)
    (h : SectionConsistent s) :
    SectionConsistent { s with
      calls := if s.calls.isEmpty then s.calls
        else s.calls.map fun call =>
          { call with
            baseline := call.baseline * factor
            swapped := call.swapped * factor
            delta := call.delta * factor }
      baselineTotal := s.baselineTotal * factor
      swappedTotal := s.swappedTotal * factor
      deltaTotal := s.deltaTotal * factor } := by
  obtain ⟨h1, h2⟩ := h
  constructor
  · show s.swappedTotal * factor - s.baselineTotal * factor = _
    split
    · next hemp =>
      have hnil : s.calls = [] := List.isEmpty_iff.mp hemp
      rw [hnil] at h1 ⊢
      simp only [List.map_nil, List.sum_nil] at h1 ⊢
      linear_combination factor * h1
    · have : (s.calls.map fun call =>
          ({ call with
            baseline := call.baseline * factor
            swapped := call.swapped * factor
            delta := call.delta * factor } : SwapPressureCall)).map SwapPressureCall.delta =
          s.calls.map fun c => c.delta * factor := by
        simp [List.map_map]
      show _ = ((s.calls.map _).map SwapPressureCall.delta).sum
      rw [this, List.sum_map_mul_right, ← h1]
      ring
  · show s.deltaTotal * factor = s.swappedTotal * factor - s.baselineTotal * factor
    rw [h2]
    ring

theorem scaleBreakdown_consistent (br : SwapPressureBreakdown) (factor : Rat)
    (h : BreakdownConsistent br) : BreakdownConsistent (scaleBreakdown br factor) := by
  unfold scaleBreakdown
  split
  · exact h
  · refine ⟨section_scale_consistent _ _ h.1, section_scale_consistent _ _ h.2.1, ?_⟩
    show br.score * factor = _
    rw [h.2.2]
    show _ = br.original.deltaTotal * factor + br.counterpart.deltaTotal * factor
    ring

theorem section_append_call_consistent (s : SwapPressureSection)
    (call : SwapPressureCall) (h : SectionConsistent s)
    (hc : call.delta = call.swapped - call.baseline) :
    SectionConsistent { s with
      calls := s.calls ++ [call]
      baselineTotal := s.baselineTotal + call.baseline
      swappedTotal := s.swappedTotal + call.swapped
      deltaTotal := s.deltaTotal + call.delta } := by
  obtain ⟨h1, h2⟩ := h
  constructor
  · show s.swappedTotal + call.swapped - (s.baselineTotal + call.baseline) =
      ((s.calls ++ [call]).map SwapPressureCall.delta).sum
    rw [List.map_append, List.sum_append]
    simp [← h1, hc]
    ring
  · show s.deltaTotal + call.delta = s.swappedTotal + call.swapped -
      (s.baselineTotal + call.baseline)
    rw [h2, hc]
    ring

theorem section_append_penalty_consistent (s : SwapPressureSection) (share : Rat)
    (call : SwapPressureCall) (h : SectionConsistent s)
    (hb : call.baseline = 0) (hs : call.swapped = share) (hd : call.delta = share) :
    SectionConsistent { s with
      calls := s.calls ++ [call]
      swappedTotal := s.swappedTotal + share
      deltaTotal := s.deltaTotal + share } := by
  obtain ⟨h1, h2⟩ := h
  constructor
  · show s.swappedTotal + share - s.baselineTotal = _
    rw [List.map_append, List.sum_append]
    simp [← h1, hd]
    ring
  · show s.deltaTotal + share = s.swappedTotal + share - s.baselineTotal
    rw [h2]
    ring

theorem applyIpConsultPenalty_consistent (br : SwapPressureBreakdown) (penalty : Rat)
    (a b : Shift) (h : BreakdownConsistent br) :
    BreakdownConsistent (applyIpConsultPenalty br penalty a b) := by
  unfold applyIpConsultPenalty
  split
  · exact h
  · refine ⟨section_append_penalty_consistent _ _ _ h.1 rfl rfl rfl,
      section_append_penalty_consistent _ _ _ h.2.1 rfl rfl rfl, ?_⟩
    show br.score + penalty = br.original.deltaTotal + penalty / 2 +
      (br.counterpart.deltaTotal + penalty / 2)
    rw [h.2.2]
    ring

theorem appendRotationPressureCall_consistent (br : SwapPressureBreakdown)
    (key : SectionKey) (shift : Shift) (resident : Resident)
    (mode : RotationCallMode) (bonus : RotationPressureBonus)
    (h : BreakdownConsistent br) :
    BreakdownConsistent (appendRotationPressureCall br key shift resident mode bonus) := by
  unfold appendRotationPressureCall
  cases key <;> cases mode <;>
    refine ⟨?_, ?_, ?_⟩ <;>
      first
        | exact h.1
        | exact h.2.1
        | (apply section_append_call_consistent _ _ (by first | exact h.1 | exact h.2.1)
           show _ = _ - _
           ring)
        | (show br.score + _ = _
           rw [h.2.2]
           ring)

theorem applyRotationPressure_consistent (br : SwapPressureBreakdown)
    (a b : Shift) (ra rb : Resident) (h : BreakdownConsistent br) :
    BreakdownConsistent (applyRotationPressure br a b ra rb) := by
  simp only [applyRotationPressure]
  repeat' split
  all_goals
    repeat
      first
        | exact h
        | apply appendRotationPressureCall_consistent

theorem buildZeroBreakdown_consistent (a b : Shift) :
    BreakdownConsistent (buildZeroBreakdown a b) := by
  refine ⟨⟨?_, ?_⟩, ⟨?_, ?_⟩, ?_⟩ <;> simp [buildZeroBreakdown]

theorem combine_sections_consistent (oSec cSec : SwapPressureSection)
    (ho : SectionConsistent oSec) (hc : SectionConsistent cSec) :
    BreakdownConsistent
      ⟨(oSec.swappedTotal + cSec.swappedTotal) - (oSec.baselineTotal + cSec.baselineTotal),
        oSec.baselineTotal + cSec.baselineTotal, oSec.swappedTotal + cSec.swappedTotal,
        oSec, cSec⟩ := by
  refine ⟨ho, hc, ?_⟩
  show _ = oSec.deltaTotal + cSec.deltaTotal
  rw [ho.2, hc.2]
  ring

theorem swapPressureScaled_consistent (a b : Shift) (ctx : Context) :
    BreakdownConsistent (swapPressureScaled a b ctx) := by
  unfold swapPressureScaled
  split
  · exact buildZeroBreakdown_consistent a b
  · exact scaleBreakdown_consistent _ _
      (combine_sections_consistent _ _ (buildSection_consistent _ _ _ _)
        (buildSection_consistent _ _ _ _))

/-- C2: in every returned breakdown, for each section the swapped total minus
the baseline total equals the sum of the visible call deltas, and the overall
score equals the sum of the two sections' delta totals — exactly, including
after the 100× multiplier scaling and the consult-penalty and
rotation-pressure adjustments are folded in. -/
theorem claim_C2_breakdown_consistency (a b : Shift) (ctx : Context) :
    ((calculateSwapPressure a b ctx).original.swappedTotal
        - (calculateSwapPressure a b ctx).original.baselineTotal
      = ((calculateSwapPressure a b ctx).original.calls.map SwapPressureCall.delta).sum)
    ∧ ((calculateSwapPressure a b ctx).counterpart.swappedTotal
        - (calculateSwapPressure a b ctx).counterpart.baselineTotal
      = ((calculateSwapPressure a b ctx).counterpart.calls.map SwapPressureCall.delta).sum)
    ∧ (calculateSwapPressure a b ctx).score =
        (calculateSwapPressure a b ctx).original.deltaTotal
          + (calculateSwapPressure a b ctx).counterpart.deltaTotal := by
  have h : BreakdownConsistent (calculateSwapPressure a b ctx) := by
    unfold calculateSwapPressure
    split
    · exact buildZeroBreakdown_consistent a b
    · exact applyRotationPressure_consistent _ _ _ _ _
        (applyIpConsultPenalty_consistent _ _ _ _ (swapPressureScaled_consistent a b ctx))
  exact ⟨h.1.1, h.2.1.1, h.2.2⟩

/-! ## C4: determinism and score bounds -/

theorem alookup_mem {α : Type} {key : String} {m : List (String × α)} {v : α}
    (h : alookup key m = some v) : (key, v) ∈ m := by
  induction m with
  | nil => cases h
  | cons p rest ih =>
    obtain ⟨k, w⟩ := p
    unfold alookup at h
    split_ifs at h with hk
    · injection h with h
      subst h
      subst hk
      exact List.mem_cons_self _ _
    · exact List.mem_cons_of_mem _ (ih h)

theorem normaliseGap_bounds (value restMin comfortable : Rat) :
    0 ≤ normaliseGap value restMin comfortable
      ∧ normaliseGap value restMin comfortable ≤ 1 := by
  unfold normaliseGap
  split_ifs with h1 h2
  · norm_num
  · norm_num
  · push_neg at h1 h2
    have hd : 0 < comfortable - restMin := by linarith
    constructor
    · exact div_nonneg (by linarith) hd.le
    · rw [div_le_one hd]
      linarith

theorem mapSet_mem {α : Type} {m : List (String × α)} {key : String} {value : α}
    {x : String × α} (h : x ∈ mapSet m key value) : x ∈ m ∨ x = (key, value) := by
  unfold mapSet at h
  split_ifs at h with hc
  · rcases List.mem_map.mp h with ⟨p, hp, he⟩
    by_cases hk : p.1 = key
    · right
      rw [if_pos hk] at he
      exact he.symm
    · left
      rw [if_neg hk] at he
      exact he ▸ hp
  · rcases List.mem_append.mp h with h | h
    · exact Or.inl h
    · right
      simpa using h

theorem foldl_preserves {α β : Type} (P : β → Prop) (f : β → α → β)
    (hf : ∀ acc x, P acc → P (f acc x)) :
    ∀ (l : List α) (acc : β), P acc → P (l.foldl f acc) := by
  intro l
  induction l with
  | nil => intro acc h; exact h
  | cons x xs ih => intro acc h; exact ih _ (hf acc x h)

theorem collectScenario_penalty (focusShift : Shift) (otherShifts : List Shift)
    (restMin : Rat) :
    ∀ x ∈ (collectScenario focusShift otherShifts restMin).contributions,
      -1 ≤ x.2.penalty ∧ x.2.penalty ≤ 0 := by
  simp only [collectScenario]
  apply foldl_preserves
    (fun acc : ScenarioSummary =>
      ∀ x ∈ acc.contributions, -1 ≤ x.2.penalty ∧ x.2.penalty ≤ 0)
  · intro acc other hacc
    dsimp only
    split_ifs with h1 h2 h3
    · exact hacc
    · exact hacc
    all_goals
      intro x hx
      rcases mapSet_mem hx with hx | hx
      · exact hacc x hx
      · subst hx
        dsimp only
        have hng := normaliseGap_bounds
          (computeGapHours focusShift.startISO focusShift.endISO other.startISO other.endISO)
          restMin (max (restMin + COMFORTABLE_REST_BUFFER_HOURS) CALL_WINDOW_HOURS)
        constructor
        · linarith [hng.2]
        · linarith [hng.1]
  · intro x hx
    cases hx

theorem sum_map_neg {α : Type} (l : List α) (f : α → Rat) :
    (l.map fun x => -(f x)).sum = -((l.map f).sum) := by
  induction l with
  | nil => simp
  | cons x xs ih =>
    simp only [List.map_cons, List.sum_cons, ih]
    ring

theorem mkCalls_contrib_bounds (entries : List SectionEntry) (tw : Rat)
    (sel : SectionEntry → Option ScenarioContribution)
    (htw : tw = (entries.map fun e => e.weight).sum)
    (hw : ∀ e ∈ entries, 0 < e.weight)
    (hp : ∀ e ∈ entries, ∀ c, sel e = some c → -1 ≤ c.penalty ∧ c.penalty ≤ 0) :
    -1 ≤ (entries.map fun e => match sel e with
        | some c => c.penalty * (if tw > 0 then e.weight / tw else 0)
        | none => (0 : Rat)).sum
      ∧ (entries.map fun e => match sel e with
        | some c => c.penalty * (if tw > 0 then e.weight / tw else 0)
        | none => (0 : Rat)).sum ≤ 0 := by
  by_cases htwp : tw > 0
  · simp only [if_pos htwp]
    constructor
    · have hterm : ∀ e ∈ entries,
          -(e.weight / tw) ≤ (match sel e with
            | some c => c.penalty * (e.weight / tw)
            | none => (0 : Rat)) := by
        intro e he
        have hwnn : 0 ≤ e.weight / tw := div_nonneg (hw e he).le htwp.le
        cases hse : sel e with
        | none =>
          simp only [hse]
          exact neg_nonpos.mpr hwnn
        | some c =>
          simp only [hse]
          have hpc := hp e he c hse
          have hm := mul_le_mul_of_nonneg_right hpc.1 hwnn
          rw [neg_one_mul] at hm
          exact hm
      have hge := List.sum_le_sum hterm
      have hneg : (entries.map fun e => -(e.weight / tw)).sum
          = -((entries.map fun e => e.weight / tw).sum) := sum_map_neg entries _
      have hsum1 : (entries.map fun e => e.weight / tw).sum = 1 := by
        simp only [div_eq_mul_inv]
        rw [List.sum_map_mul_right, ← htw]
        exact mul_inv_cancel₀ (ne_of_gt htwp)
      rw [hneg, hsum1] at hge
      exact hge
    · have hterm : ∀ e ∈ entries,
          (match sel e with
            | some c => c.penalty * (e.weight / tw)
            | none => (0 : Rat)) ≤ 0 := by
        intro e he
        have hwnn : 0 ≤ e.weight / tw := div_nonneg (hw e he).le htwp.le
        cases hse : sel e with
        | none => simp [hse]
        | some c =>
          simp only [hse]
          have hpc := hp e he c hse
          exact mul_nonpos_of_nonpos_of_nonneg hpc.2 hwnn
      have hle := List.sum_le_sum hterm
      have h0 : (entries.map fun _ => (0 : Rat)).sum = 0 := by simp
      rw [h0] at hle
      exact hle
  · have hz : ∀ x ∈ entries.map fun e => match sel e with
        | some c => c.penalty * (if tw > 0 then e.weight / tw else 0)
        | none => (0 : Rat), x = 0 := by
      intro x hx
      rcases List.mem_map.mp hx with ⟨e, _, rfl⟩
      cases hse : sel e <;> simp [hse, htwp]
    rw [List.sum_eq_zero hz]
    norm_num

theorem buildSection_entries_spec (mergedIds : List String)
    (bl sw : List (String × ScenarioContribution)) :
    ∀ e ∈ ((mergedIds.filterMap fun shiftId =>
        let before := alookup shiftId bl
        let after := alookup shiftId sw
        match (before.map (·.shift)).orElse (fun _ => after.map (·.shift)) with
        | none => none
        | some shift =>
          let weight := max ((before.map (·.closeness)).getD 0)
            ((after.map (·.closeness)).getD 0)
          if weight ≤ 0 then none
          else some ⟨shift, before, after, weight⟩) : List SectionEntry),
      0 < e.weight
        ∧ (∀ c, e.before = some c → ∃ k, (k, c) ∈ bl)
        ∧ (∀ c, e.after = some c → ∃ k, (k, c) ∈ sw) := by
  intro e he
  rcases List.mem_filterMap.mp he with ⟨shiftId, _, hf⟩
  dsimp only at hf
  split at hf
  · cases hf
  · split_ifs at hf with hwle
    injection hf with hf
    subst hf
    refine ⟨not_le.mp hwle, ?_, ?_⟩
    · intro c hc
      exact ⟨shiftId, alookup_mem hc⟩
    · intro c hc
      exact ⟨shiftId, alookup_mem hc⟩

theorem buildSection_total_bounds (baselineShift swappedShift : Shift)
    (otherShifts : List Shift) (restMin : Rat) :
    (-1 ≤ (buildSection baselineShift swappedShift otherShifts restMin).baselineTotal
      ∧ (buildSection baselineShift swappedShift otherShifts restMin).baselineTotal ≤ 0)
    ∧ (-1 ≤ (buildSection baselineShift swappedShift otherShifts restMin).swappedTotal
      ∧ (buildSection baselineShift swappedShift otherShifts restMin).swappedTotal ≤ 0) := by
  simp only [buildSection]
  split
  · norm_num
  · dsimp only
    simp only [List.map_map, Function.comp]
    constructor
    · refine mkCalls_contrib_bounds _ _ (fun e => e.before) rfl ?_ ?_
      · intro e he
        exact (buildSection_entries_spec _ _ _ e he).1
      · intro e he c hc
        obtain ⟨k, hk⟩ := (buildSection_entries_spec _ _ _ e he).2.1 c hc
        exact collectScenario_penalty baselineShift otherShifts restMin (k, c) hk
    · refine mkCalls_contrib_bounds _ _ (fun e => e.after) rfl ?_ ?_
      · intro e he
        exact (buildSection_entries_spec _ _ _ e he).1
      · intro e he c hc
        obtain ⟨k, hk⟩ := (buildSection_entries_spec _ _ _ e he).2.2 c hc
        exact collectScenario_penalty swappedShift otherShifts restMin (k, c) hk

theorem resolveShiftMultiplier_mem (shift : Shift) :
    resolveShiftMultiplier shift = 1 ∨ resolveShiftMultiplier shift = 2
      ∨ resolveShiftMultiplier shift = 4 := by
  simp only [resolveShiftMultiplier]
  split_ifs <;> simp

theorem scale_score_bound (oSec cSec : SwapPressureSection) (f : Rat)
    (ho1 : -1 ≤ oSec.baselineTotal) (ho2 : oSec.baselineTotal ≤ 0)
    (ho3 : -1 ≤ oSec.swappedTotal) (ho4 : oSec.swappedTotal ≤ 0)
    (hc1 : -1 ≤ cSec.baselineTotal) (hc2 : cSec.baselineTotal ≤ 0)
    (hc3 : -1 ≤ cSec.swappedTotal) (hc4 : cSec.swappedTotal ≤ 0)
    (hf0 : 0 < f) (hf : f ≤ 1600) :
    -3200 ≤ (scaleBreakdown
        ⟨(oSec.swappedTotal + cSec.swappedTotal)
            - (oSec.baselineTotal + cSec.baselineTotal),
          oSec.baselineTotal + cSec.baselineTotal,
          oSec.swappedTotal + cSec.swappedTotal, oSec, cSec⟩ f).score
      ∧ (scaleBreakdown
        ⟨(oSec.swappedTotal + cSec.swappedTotal)
            - (oSec.baselineTotal + cSec.baselineTotal),
          oSec.baselineTotal + cSec.baselineTotal,
          oSec.swappedTotal + cSec.swappedTotal, oSec, cSec⟩ f).score ≤ 3200 := by
  unfold scaleBreakdown
  split_ifs with h1
  · dsimp only
    constructor <;> linarith
  · dsimp only
    constructor
    · nlinarith [mul_nonneg (by linarith : (0 : Rat) ≤ (oSec.swappedTotal + cSec.swappedTotal)
          - (oSec.baselineTotal + cSec.baselineTotal) + 2) hf0.le]
    · nlinarith [mul_nonneg (by linarith : (0 : Rat) ≤ 2 - ((oSec.swappedTotal + cSec.swappedTotal)
          - (oSec.baselineTotal + cSec.baselineTotal))) hf0.le]

theorem swapPressureScaled_score_bounds (a b : Shift) (ctx : Context) :
    -3200 ≤ (swapPressureScaled a b ctx).score
      ∧ (swapPressureScaled a b ctx).score ≤ 3200 := by
  unfold swapPressureScaled
  split
  · norm_num [buildZeroBreakdown]
  · dsimp only
    have hma := resolveShiftMultiplier_mem a
    have hmb := resolveShiftMultiplier_mem b
    refine scale_score_bound _ _ _
      (buildSection_total_bounds _ _ _ _).1.1 (buildSection_total_bounds _ _ _ _).1.2
      (buildSection_total_bounds _ _ _ _).2.1 (buildSection_total_bounds _ _ _ _).2.2
      (buildSection_total_bounds _ _ _ _).1.1 (buildSection_total_bounds _ _ _ _).1.2
      (buildSection_total_bounds _ _ _ _).2.1 (buildSection_total_bounds _ _ _ _).2.2
      ?_ ?_
    · rcases hma with h | h | h <;> rcases hmb with h' | h' | h' <;> rw [h, h'] <;>
        norm_num [SCORE_SCALE]
    · rcases hma with h | h | h <;> rcases hmb with h' | h' | h' <;> rw [h, h'] <;>
        norm_num [SCORE_SCALE]

theorem applyIpConsultPenalty_score (br : SwapPressureBreakdown) (p : Rat)
    (x y : Shift) : (applyIpConsultPenalty br p x y).score = br.score + p := by
  unfold applyIpConsultPenalty
  split_ifs with h
  · rw [h]
    ring
  · rfl

theorem resolveIpConsultPenalty_mem (a b : Shift) (ctx : Context) :
    resolveIpConsultPenalty a b ctx = 0
      ∨ resolveIpConsultPenalty a b ctx = IP_CONSULT_MISMATCH_PENALTY := by
  simp only [resolveIpConsultPenalty]
  split_ifs <;> simp

theorem resolveRotationPressureBonus_value (r : Resident) (s : Shift) :
    (resolveRotationPressureBonus r s).value = 0
      ∨ (resolveRotationPressureBonus r s).value = ROTATION_PRESSURE_BONUS := by
  simp only [resolveRotationPressureBonus]
  repeat' split
  all_goals simp

theorem appendRotationPressureCall_score (u : SwapPressureBreakdown)
    (k : SectionKey) (s : Shift) (r : Resident) (m : RotationCallMode)
    (bonus : RotationPressureBonus) :
    (appendRotationPressureCall u k s r m bonus).score
      = u.score + (match m with
        | .baseline => bonus.value
        | .swapped => -bonus.value) := rfl

theorem condAppend_score (u : SwapPressureBreakdown) (k : SectionKey) (s : Shift)
    (r : Resident) (m : RotationCallMode) (bonus : RotationPressureBonus) :
    (if bonus.value > 0 then appendRotationPressureCall u k s r m bonus else u).score
      = u.score + (if bonus.value > 0 then
          (match m with
            | RotationCallMode.baseline => bonus.value
            | RotationCallMode.swapped => -bonus.value) else 0) := by
  split_ifs with h
  · exact appendRotationPressureCall_score u k s r m bonus
  · ring

theorem applyRotationPressure_score (br : SwapPressureBreakdown) (x y : Shift)
    (ra rb : Resident) :
    (applyRotationPressure br x y ra rb).score = br.score
      + (if (resolveRotationPressureBonus ra x).value > 0
          then (resolveRotationPressureBonus ra x).value else 0)
      + (if (resolveRotationPressureBonus ra y).value > 0
          then -(resolveRotationPressureBonus ra y).value else 0)
      + (if (resolveRotationPressureBonus rb y).value > 0
          then (resolveRotationPressureBonus rb y).value else 0)
      + (if (resolveRotationPressureBonus rb x).value > 0
          then -(resolveRotationPressureBonus rb x).value else 0) := by
  simp only [applyRotationPressure, condAppend_score]

theorem applyRotationPressure_score_bound (br : SwapPressureBreakdown) (x y : Shift)
    (ra rb : Resident) :
    br.score - 400 ≤ (applyRotationPressure br x y ra rb).score
      ∧ (applyRotationPressure br x y ra rb).score ≤ br.score + 400 := by
  simp only [applyRotationPressure_score]
  have h1 := resolveRotationPressureBonus_value ra x
  have h2 := resolveRotationPressureBonus_value ra y
  have h3 := resolveRotationPressureBonus_value rb y
  have h4 := resolveRotationPressureBonus_value rb x
  norm_num [ROTATION_PRESSURE_BONUS] at h1 h2 h3 h4
  rcases h1 with h1 | h1 <;> rcases h2 with h2 | h2 <;> rcases h3 with h3 | h3 <;>
    rcases h4 with h4 | h4
  all_goals rw [h1, h2, h3, h4]
  all_goals constructor
  all_goals norm_num
  all_goals try linarith

theorem calculateSwapPressure_score_bounds (a b : Shift) (ctx : Context) :
    -3650 ≤ (calculateSwapPressure a b ctx).score
      ∧ (calculateSwapPressure a b ctx).score ≤ 3650 := by
  unfold calculateSwapPressure
  split
  · norm_num [buildZeroBreakdown]
  · next prepared heq =>
    dsimp only
    have hs := swapPressureScaled_score_bounds a b ctx
    have hp := resolveIpConsultPenalty_mem a b ctx
    have hip := applyIpConsultPenalty_score (swapPressureScaled a b ctx)
      (resolveIpConsultPenalty a b ctx) a b
    have hr := applyRotationPressure_score_bound
      (applyIpConsultPenalty (swapPressureScaled a b ctx)
        (resolveIpConsultPenalty a b ctx) a b) a b prepared.1 prepared.2
    rw [hip] at hr
    norm_num [IP_CONSULT_MISMATCH_PENALTY] at hp
    rcases hp with hp | hp <;> constructor <;> linarith [hs.1, hs.2, hr.1, hr.2]

/-- **C4** (amended): the scoring engine is deterministic — equal inputs give
equal outputs — and bounded: before the additive rotation-pressure and
consult-penalty adjustments the score satisfies `-3200 ≤ score ≤ 3200`
(each section's baseline and swapped totals lie in `[-1, 0]`, so the
pre-multiplier delta lies in `[-2, 2]`, and the multiplier ceiling is
`100 × 4 × 4 = 1600`), and after those additive adjustments the score stays
bounded by `±3650` (hence finite). The spec's claimed pre-adjustment bound of
`±1600` is too small by the factor `2`; see the counterexample. -/
theorem claim_C4_determinism_and_bounds (a b : Shift) (ctx : Context)
    (a' b' : Shift) (ctx' : Context)
    (ha : a = a') (hb : b = b') (hctx : ctx = ctx') :
    calculateSwapPressure a b ctx = calculateSwapPressure a' b' ctx'
      ∧ (-3200 ≤ (swapPressureScaled a b ctx).score
          ∧ (swapPressureScaled a b ctx).score ≤ 3200)
      ∧ (-3650 ≤ (calculateSwapPressure a b ctx).score
          ∧ (calculateSwapPressure a b ctx).score ≤ 3650) := by
  subst ha
  subst hb
  subst hctx
  exact ⟨rfl, swapPressureScaled_score_bounds a b ctx,
    calculateSwapPressure_score_bounds a b ctx⟩

unseal Rat.add Rat.sub Rat.mul Rat.inv in
/-- **C4** counterexample to the spec's `±1600` pre-adjustment bound: two
holiday night-float shifts (multiplier `4 × 4`), where each resident has one
fully-overlapping non-backup call at their own shift's time and nothing within
the call window of the incoming shift, score exactly `3200` before the
additive adjustments. -/
theorem claim_C4_bound_counterexample :
    1600 < (swapPressureScaled
      ⟨"A", "RA", 0, 600, .NIGHT_FLOAT, none, true⟩
      ⟨"B", "RB", 144000, 144600, .NIGHT_FLOAT, none, true⟩
      ⟨⟨0, []⟩,
        [("RA", ⟨"RA", "RA", [.NIGHT_FLOAT], [], []⟩),
          ("RB", ⟨"RB", "RB", [.NIGHT_FLOAT], [], []⟩)],
        [("RA", [⟨"A", "RA", 0, 600, .NIGHT_FLOAT, none, true⟩,
          ⟨"N1", "RA", 0, 600, .NIGHT_FLOAT, none, false⟩]),
          ("RB", [⟨"B", "RB", 144000, 144600, .NIGHT_FLOAT, none, true⟩,
          ⟨"N2", "RB", 144000, 144600, .NIGHT_FLOAT, none, false⟩])],
        []⟩).score
    ∧ (swapPressureScaled
      ⟨"A", "RA", 0, 600, .NIGHT_FLOAT, none, true⟩
      ⟨"B", "RB", 144000, 144600, .NIGHT_FLOAT, none, true⟩
      ⟨⟨0, []⟩,
        [("RA", ⟨"RA", "RA", [.NIGHT_FLOAT], [], []⟩),
          ("RB", ⟨"RB", "RB", [.NIGHT_FLOAT], [], []⟩)],
        [("RA", [⟨"A", "RA", 0, 600, .NIGHT_FLOAT, none, true⟩,
          ⟨"N1", "RA", 0, 600, .NIGHT_FLOAT, none, false⟩]),
          ("RB", [⟨"B", "RB", 144000, 144600, .NIGHT_FLOAT, none, true⟩,
          ⟨"N2", "RB", 144000, 144600, .NIGHT_FLOAT, none, false⟩])],
        []⟩).score = 3200 := by
  decide

/-- C4 witness: the determinism and bound statement at a concrete pair of
shifts and context. -/
theorem claim_C4_determinism_and_bounds_witness :
    calculateSwapPressure
        ⟨"S1", "R1", 0, 600, .MOSES, none, false⟩
        ⟨"S2", "R2", 1440, 2040, .MOSES, none, false⟩
        ⟨⟨8, []⟩, [], [], []⟩
      = calculateSwapPressure
        ⟨"S1", "R1", 0, 600, .MOSES, none, false⟩
        ⟨"S2", "R2", 1440, 2040, .MOSES, none, false⟩
        ⟨⟨8, []⟩, [], [], []⟩
      ∧ (-3200 ≤ (swapPressureScaled
            ⟨"S1", "R1", 0, 600, .MOSES, none, false⟩
            ⟨"S2", "R2", 1440, 2040, .MOSES, none, false⟩
            ⟨⟨8, []⟩, [], [], []⟩).score
          ∧ (swapPressureScaled
            ⟨"S1", "R1", 0, 600, .MOSES, none, false⟩
            ⟨"S2", "R2", 1440, 2040, .MOSES, none, false⟩
            ⟨⟨8, []⟩, [], [], []⟩).score ≤ 3200)
      ∧ (-3650 ≤ (calculateSwapPressure
            ⟨"S1", "R1", 0, 600, .MOSES, none, false⟩
            ⟨"S2", "R2", 1440, 2040, .MOSES, none, false⟩
            ⟨⟨8, []⟩, [], [], []⟩).score
          ∧ (calculateSwapPressure
            ⟨"S1", "R1", 0, 600, .MOSES, none, false⟩
            ⟨"S2", "R2", 1440, 2040, .MOSES, none, false⟩
            ⟨⟨8, []⟩, [], [], []⟩).score ≤ 3650) :=
  claim_C4_determinism_and_bounds
    ⟨"S1", "R1", 0, 600, .MOSES, none, false⟩
    ⟨"S2", "R2", 1440, 2040, .MOSES, none, false⟩
    ⟨⟨8, []⟩, [], [], []⟩
    ⟨"S1", "R1", 0, 600, .MOSES, none, false⟩
    ⟨"S2", "R2", 1440, 2040, .MOSES, none, false⟩
    ⟨⟨8, []⟩, [], [], []⟩
    rfl rfl rfl

/-! ## C3: serial/parallel equivalence -/

theorem syncEvalStep_out (ctx : Context) (l : List ShiftPair) :
    ∀ init : EvalLoopState,
      (l.foldl (syncEvalStep ctx) init).out
        = init.out ++ l.filterMap (pairCandidate ctx) := by
  induction l with
  | nil =>
    intro init
    simp
  | cons x xs ih =>
    intro init
    rw [List.foldl_cons, ih]
    cases h : explainSwap x.a x.b ctx with
    | infeasible reason advisories => simp [syncEvalStep, pairCandidate, h]
    | feasible advisories => simp [syncEvalStep, pairCandidate, h]

theorem evaluatePairsSync_eq (pairs : List ShiftPair) (ctx : Context) :
    evaluatePairsSync pairs ctx = pairs.filterMap (pairCandidate ctx) := by
  show (pairs.foldl (syncEvalStep ctx) ⟨[], [], [], 0⟩).out = _
  rw [syncEvalStep_out]
  rfl

theorem workerEvaluatePairs_candidates (chunk : List ShiftPair) (ctx : Context) :
    (workerEvaluatePairs chunk (serializeContext ctx)).candidates
      = chunk.filterMap (pairCandidate ctx) := by
  show (chunk.foldl (workerEvalStep (hydrateContext (serializeContext ctx)))
      ⟨[], [], [], 0⟩).out = _
  rw [show workerEvalStep (hydrateContext (serializeContext ctx)) = syncEvalStep ctx from rfl]
  rw [syncEvalStep_out]
  rfl

theorem chunksOf_flatten {α : Type} (k : Nat) (l : List α) :
    (chunksOf k l).flatten = l := by
  generalize hn : l.length = n
  induction n using Nat.strong_induction_on generalizing l with
  | _ n ih =>
    cases l with
    | nil => simp [chunksOf]
    | cons x xs =>
      rw [chunksOf]
      simp only [List.flatten_cons]
      rw [ih (xs.drop (k - 1)).length ?_ _ rfl]
      · rw [List.cons_append, List.take_append_drop]
      · subst hn
        simp only [List.length_drop, List.length_cons]
        omega

theorem flatMap_candidates (chunks : List (List ShiftPair)) (ctx : Context) :
    ((chunks.map fun chunk => workerEvaluatePairs chunk (serializeContext ctx)).flatMap
        fun r => r.candidates)
      = chunks.flatten.filterMap (pairCandidate ctx) := by
  induction chunks with
  | nil => simp
  | cons c cs ih =>
    simp only [List.map_cons, List.flatMap_cons, List.flatten_cons, List.filterMap_append,
      ih, workerEvaluatePairs_candidates]

/-- **C3**: for every batch of pairs and context, the chunked worker evaluation
(each worker hydrating its own copy of the serialized context and running the
same per-pair loop) returns exactly the serial result, for every adapter count
and also through the pool's worker/serial dispatch. -/
theorem claim_C3_serial_parallel_equivalence (pairs : List ShiftPair) (ctx : Context)
    (adapterCount : Nat) (canSpawn : Bool) (size threshold : Nat) :
    evaluatePairsViaWorkers pairs ctx adapterCount = evaluatePairsSync pairs ctx
      ∧ evaluatePairsPool pairs ctx canSpawn size threshold
        = evaluatePairsSync pairs ctx := by
  have hmain : ∀ n : Nat, evaluatePairsViaWorkers pairs ctx n = evaluatePairsSync pairs ctx := by
    intro n
    simp only [evaluatePairsViaWorkers]
    rw [flatMap_candidates, chunksOf_flatten, evaluatePairsSync_eq]
    exact ite_self _
  refine ⟨hmain adapterCount, ?_⟩
  simp only [evaluatePairsPool]
  split
  · exact hmain size
  · rfl

/-! ## C1: symmetry of acceptance -/

theorem tierMatchOk_symm (a b : Shift) : tierMatchOk a b = tierMatchOk b a := by
  unfold tierMatchOk
  cases getMosesTier a <;> cases getMosesTier b <;> simp [eq_comm]

theorem feasCond_symm (a b : Shift) (ctx : Context) :
    feasCond a b ctx = feasCond b a ctx := by
  unfold feasCond
  cases hla : alookup a.residentId ctx.residentsById with
  | none =>
    cases hlb : alookup b.residentId ctx.residentsById <;> simp [hla, hlb]
  | some rA =>
    cases hlb : alookup b.residentId ctx.residentsById with
    | none => simp [hla, hlb]
    | some rB =>
      simp only [hla, hlb]
      rw [show (decide (a.id ≠ b.id)) = (decide (b.id ≠ a.id)) by simp [ne_comm],
        show (decide (a.residentId ≠ b.residentId))
            = (decide (b.residentId ≠ a.residentId)) by simp [ne_comm],
        tierMatchOk_symm,
        show (decide (isWeekendOrHoliday a = isWeekendOrHoliday b))
            = (decide (isWeekendOrHoliday b = isWeekendOrHoliday a)) by simp [eq_comm],
        Bool.or_comm (decide (a.type ∉ ctx.ruleConfig.typeWhitelist))
          (decide (b.type ∉ ctx.ruleConfig.typeWhitelist))]
      cases decide (b.type ∈ rA.eligibleShiftTypes) <;>
        cases decide (a.type ∈ rB.eligibleShiftTypes) <;>
        cases sideOk ctx a b rA <;>
        cases sideOk ctx b a rB <;>
        simp

theorem resolveShabbos_pair (obs : List String) (r1 r2 : Resident) (s1 s2 : Shift) :
    resolveShabbosRestrictionForSwap obs [(r1, s1), (r2, s2)] = none
      ↔ evaluateShabbosRestriction r1 s1 obs = none
        ∧ evaluateShabbosRestriction r2 s2 obs = none := by
  simp only [resolveShabbosRestrictionForSwap]
  cases evaluateShabbosRestriction r1 s1 obs <;>
    cases evaluateShabbosRestriction r2 s2 obs <;> simp

theorem runSwapTimelines_isOk (tlA tlB : List Shift) (cfg : RuleConfig)
    (rA rB : Resident) (fA fB : String) :
    exceptIsOk (runSwapTimelines tlA tlB cfg rA rB fA fB)
      = (exceptIsOk (validateResidentTimeline tlA cfg rA
            (some ⟨some [fA], some BACKUP_SOFT_TYPES⟩))
        && exceptIsOk (validateResidentTimeline tlB cfg rB
            (some ⟨some [fB], some BACKUP_SOFT_TYPES⟩))) := by
  unfold runSwapTimelines
  cases validateResidentTimeline tlA cfg rA (some ⟨some [fA], some BACKUP_SOFT_TYPES⟩) <;>
    cases validateResidentTimeline tlB cfg rB (some ⟨some [fB], some BACKUP_SOFT_TYPES⟩) <;>
    simp [exceptIsOk]

theorem evaluateSwapPrepared_isFeasible (ctx : Context) (a b : Shift)
    (rA rB : Resident) :
    (evaluateSwapPrepared ⟨ctx, a, b, rA, rB⟩).isFeasible
      = (sideOk ctx a b rA && sideOk ctx b a rB) := by
  unfold evaluateSwapPrepared sideOk
  dsimp only
  cases hsh : resolveShabbosRestrictionForSwap ctx.shabbosObservers
      [(rA, { b with residentId := rA.id }), (rB, { a with residentId := rB.id })] with
  | some r =>
    have hne : ¬(evaluateShabbosRestriction rA { b with residentId := rA.id }
          ctx.shabbosObservers = none
        ∧ evaluateShabbosRestriction rB { a with residentId := rB.id }
          ctx.shabbosObservers = none) := by
      intro hc
      rw [(resolveShabbos_pair _ _ _ _ _).mpr hc] at hsh
      cases hsh
    cases heA : evaluateShabbosRestriction rA { b with residentId := rA.id }
        ctx.shabbosObservers with
    | some r1 => simp [heA, SwapEvaluation.isFeasible]
    | none =>
      cases heB : evaluateShabbosRestriction rB { a with residentId := rB.id }
          ctx.shabbosObservers with
      | some r2 => simp [heA, heB, SwapEvaluation.isFeasible]
      | none => exact absurd ⟨heA, heB⟩ hne
  | none =>
    obtain ⟨heA, heB⟩ := (resolveShabbos_pair _ _ _ _ _).mp hsh
    simp only [heA, heB, Option.isNone_none, Bool.true_and]
    by_cases hva : shiftVacationConflicts { b with residentId := rA.id } rA = []
    · rw [if_neg (by simp [hva])]
      cases hra : shiftRotationConflicts { b with residentId := rA.id } rA with
      | some rc => simp [hva, hra, SwapEvaluation.isFeasible]
      | none =>
        by_cases hvb : shiftVacationConflicts { a with residentId := rB.id } rB = []
        · rw [if_neg (by simp [hvb])]
          cases hrb : shiftRotationConflicts { a with residentId := rB.id } rB with
          | some rc => simp [hva, hra, hvb, hrb, SwapEvaluation.isFeasible]
          | none =>
            have hmatch : ∀ X : Except (RuleViolationError × List SwapAdvisory)
                (List SwapAdvisory),
                (SwapEvaluation.isFeasible (match X with
                  | .error err => SwapEvaluation.infeasible
                      (.ruleViolation err.1.code err.1.residentId a.id b.id) err.2
                  | .ok advisories => SwapEvaluation.feasible advisories))
                  = exceptIsOk X := by
              intro X
              cases X <;> rfl
            rw [hmatch, runSwapTimelines_isOk]
            simp [heA, heB, hva, hra, hvb, hrb]
        · rw [if_pos (by simp [hvb])]
          simp [hvb, SwapEvaluation.isFeasible]
    · rw [if_pos (by simp [hva])]
      simp [hva, SwapEvaluation.isFeasible]

theorem evalTail_isFeasible (a b : Shift) (ctx : Context) (rA rB : Resident) :
    (SwapEvaluation.isFeasible (match prepareSwapTail a b ctx rA rB with
      | .error failure => SwapEvaluation.infeasible failure []
      | .ok prepared => evaluateSwapPrepared prepared))
      = (decide (isWeekendOrHoliday a = isWeekendOrHoliday b)
        && !(decide (ctx.ruleConfig.typeWhitelist ≠ [])
            && (decide (a.type ∉ ctx.ruleConfig.typeWhitelist)
              || decide (b.type ∉ ctx.ruleConfig.typeWhitelist)))
        && decide (b.type ∈ rA.eligibleShiftTypes)
        && decide (a.type ∈ rB.eligibleShiftTypes)
        && sideOk ctx a b rA
        && sideOk ctx b a rB) := by
  unfold prepareSwapTail
  dsimp only
  split_ifs with h1 h2 h3 h4
  · simp [h1, SwapEvaluation.isFeasible]
  · obtain ⟨h2a, h2b⟩ := h2
    rcases h2b with h2b | h2b <;> simp [h2a, h2b, SwapEvaluation.isFeasible]
  · have h1' : isWeekendOrHoliday a = isWeekendOrHoliday b := not_ne_iff.mp h1
    dsimp only
    rw [evaluateSwapPrepared_isFeasible]
    by_cases hwl : ctx.ruleConfig.typeWhitelist = []
    · simp [h1', h3, h4, hwl]
    · have h2' : ¬(a.type ∉ ctx.ruleConfig.typeWhitelist
          ∨ b.type ∉ ctx.ruleConfig.typeWhitelist) := fun hc => h2 ⟨hwl, hc⟩
      push_neg at h2'
      simp [h1', h3, h4, hwl, h2'.1, h2'.2]
  · simp [h4, SwapEvaluation.isFeasible]
  · simp [h3, SwapEvaluation.isFeasible]

theorem evaluateSwap_isFeasible_eq (a b : Shift) (ctx : Context) :
    (evaluateSwap (some a) (some b) (some ctx)).isFeasible = feasCond a b ctx := by
  unfold evaluateSwap prepareSwap feasCond
  dsimp only
  by_cases hid : a.id = b.id
  · simp [hid, SwapEvaluation.isFeasible]
  · rw [if_neg hid]
    by_cases hres : a.residentId = b.residentId
    · simp [hres, hid, SwapEvaluation.isFeasible]
    · rw [if_neg hres]
      cases hla : alookup a.residentId ctx.residentsById with
      | none =>
        cases hlb : alookup b.residentId ctx.residentsById <;>
          simp [hla, hlb, SwapEvaluation.isFeasible]
      | some rA =>
        cases hlb : alookup b.residentId ctx.residentsById with
        | none => simp [hla, hlb, SwapEvaluation.isFeasible]
        | some rB =>
          simp only [hla, hlb]
          cases hta : getMosesTier a with
          | none =>
            cases htb : getMosesTier b <;>
              simp [hta, htb, tierMatchOk, hid, hres, evalTail_isFeasible, Bool.and_assoc]
          | some tA =>
            cases htb : getMosesTier b with
            | none =>
              simp [hta, htb, tierMatchOk, hid, hres, evalTail_isFeasible, Bool.and_assoc]
            | some tB =>
              by_cases ht : tA = tB
              · simp [hta, htb, ht, tierMatchOk, hid, hres, evalTail_isFeasible,
                  Bool.and_assoc]
              · simp [hta, htb, ht, tierMatchOk, hid, hres, SwapEvaluation.isFeasible]

/-- **C1**: acceptance is symmetric: a swap of `a` and `b` is feasible exactly
when the swap of `b` and `a` is, for every context (the reported rejection
reasons may differ, but acceptance agrees). -/
theorem claim_C1_feasibility_symmetry (a b : Shift) (ctx : Context) :
    (evaluateSwap (some a) (some b) (some ctx)).isFeasible
      = (evaluateSwap (some b) (some a) (some ctx)).isFeasible := by
  rw [evaluateSwap_isFeasible_eq, evaluateSwap_isFeasible_eq, feasCond_symm]

end CallSwap
